import Mathlib

/-!
# Bit-banged HD44780 driver (dsPIC33CH128MP508, `LCD/`)

Shallow embedding of `LCD/Custom_Characters.c` and `LCD/Hello_World.c`.

* The six LCD signals are the bit-fields `LATDbits.LATD0 .. LATD5`; each is one bit wide,
  so a write stores the assigned value modulo 2.
* Every pin write and every call of a delay routine is appended to a trace, in program order.
  The busy-wait loops themselves are executed too; `spins` counts the executions of their
  innermost bodies.
* `unsigned char` / `uint8_t` parameters are reduced modulo 256 on entry, `uint16_t` and
  `unsigned int` (16 bit on this target) modulo 65536.
-/

namespace LCD

/-- The six logical signals, `#define RS LATDbits.LATD0` .. `#define D7 LATDbits.LATD5`. -/
inductive Pin where
  | RS | EN | D4 | D5 | D6 | D7
  deriving DecidableEq, Repr

/-- One observable step: a write of a level to a pin, or a call of a delay routine. -/
inductive Event where
  | write (pin : Pin) (level : Nat)
  | delay_us (microseconds : Nat)
  | delay_ms (ms : Nat)
  deriving DecidableEq, Repr

/-- Levels of the six output latches. -/
structure Pins where
  RS : Nat
  EN : Nat
  D4 : Nat
  D5 : Nat
  D6 : Nat
  D7 : Nat
  deriving DecidableEq, Repr

/-- Store a level into one latch. -/
def Pins.set (p : Pins) : Pin → Nat → Pins
  | Pin.RS, v => { p with RS := v }
  | Pin.EN, v => { p with EN := v }
  | Pin.D4, v => { p with D4 := v }
  | Pin.D5, v => { p with D5 := v }
  | Pin.D6, v => { p with D6 := v }
  | Pin.D7, v => { p with D7 := v }

/-- Machine state: the latches, the trace recorded so far, and the busy-wait counter. -/
structure MCU where
  pins : Pins
  trace : List Event
  spins : Nat
  deriving DecidableEq, Repr

/-- Assignment to a one-bit latch bit-field: `PIN = v;`. -/
def writePin (pin : Pin) (v : Nat) (s : MCU) : MCU :=
  { s with pins := s.pins.set pin (v % 2), trace := s.trace ++ [Event.write pin (v % 2)] }

/-- One execution of a `repeat #n; nop` busy-wait body. -/
def spin (s : MCU) : MCU :=
  { s with spins := s.spins + 1 }

/-- Record the call of a delay routine. -/
def emit (e : Event) (s : MCU) : MCU :=
  { s with trace := s.trace ++ [e] }

/-- Conversion of a `char` value to `unsigned char` at a call `LCD_Char(*str)`. -/
def toUChar (c : Int) : Nat :=
  (c % 256).toNat

/-! ## `Custom_Characters.c` -/

namespace Custom_Characters

/-- Inner loop of `delay_ms`: `while (i--) { repeat #3; nop }`.
Returns the counter after the loop (the failing test still post-decrements, wrapping to 0xFFFF). -/
def delay_ms_inner : Nat → MCU → Nat × MCU
  | 0, s => (65535, s)
  | i + 1, s => delay_ms_inner i (spin s)

/-- Outer loop of `delay_ms`: `while (ms--) { uint16_t i = 1000; while (i--) ... }`. -/
def delay_ms_loop : Nat → MCU → Nat × MCU
  | 0, s => (65535, s)
  | ms + 1, s => delay_ms_loop ms (delay_ms_inner 1000 s).2

/-- Embeds `void delay_ms(uint16_t ms)`. -/
def delay_ms (ms : Nat) (s : MCU) : MCU :=
  let ms := ms % 65536
  (delay_ms_loop ms (emit (Event.delay_ms ms) s)).2

/-- Loop of `delay_us`: `while (microseconds--) { repeat #12; nop }`. -/
def delay_us_loop : Nat → MCU → Nat × MCU
  | 0, s => (65535, s)
  | microseconds + 1, s => delay_us_loop microseconds (spin s)

/-- Embeds `void delay_us(unsigned int microseconds)`. -/
def delay_us (microseconds : Nat) (s : MCU) : MCU :=
  let microseconds := microseconds % 65536
  (delay_us_loop microseconds (emit (Event.delay_us microseconds) s)).2

/-- Embeds `void LCD_EnablePulse()`. -/
def LCD_EnablePulse (s : MCU) : MCU :=
  let s := writePin Pin.EN 1 s
  let s := delay_us 1 s
  let s := writePin Pin.EN 0 s
  delay_us 1 s

/-- Embeds `void LCD_Send4Bits(unsigned char data)`. -/
def LCD_Send4Bits (data : Nat) (s : MCU) : MCU :=
  let data := data % 256
  let s := writePin Pin.D4 ((data >>> 0) &&& 0x01) s
  let s := writePin Pin.D5 ((data >>> 1) &&& 0x01) s
  let s := writePin Pin.D6 ((data >>> 2) &&& 0x01) s
  let s := writePin Pin.D7 ((data >>> 3) &&& 0x01) s
  LCD_EnablePulse s

/-- Embeds `void LCD_Command(unsigned char cmd)`. -/
def LCD_Command (cmd : Nat) (s : MCU) : MCU :=
  let cmd := cmd % 256
  let s := writePin Pin.RS 0 s
  let s := LCD_Send4Bits (cmd >>> 4) s
  let s := LCD_Send4Bits (cmd &&& 0x0F) s
  delay_ms 2 s

/-- Embeds `void LCD_Char(unsigned char data)`. -/
def LCD_Char (data : Nat) (s : MCU) : MCU :=
  let data := data % 256
  let s := writePin Pin.RS 1 s
  let s := LCD_Send4Bits (data >>> 4) s
  LCD_Send4Bits (data &&& 0x0F) s

/-- Embeds `void LCD_String(const char *str)`. The argument is the memory from `str` onwards, one
`char` value per cell; running off its end without meeting a NUL is an out-of-bounds read and
gives `none`. -/
def LCD_String : List Int → MCU → Option MCU
  | [], _ => none
  | c :: str, s => if c ≠ 0 then LCD_String str (LCD_Char (toUChar c) s) else some s

/-- Embeds `void LCD_SetCursor(unsigned char row, unsigned char col)`. The local `address` is declared
without initialiser; `address0` is the indeterminate value it holds before any assignment. -/
def LCD_SetCursor (address0 : Nat) (row col : Nat) (s : MCU) : MCU :=
  let row := row % 256
  let col := col % 256
  let address := address0 % 256
  let address :=
    if row = 1 then (0x80 + col) % 256
    else if row = 2 then (0xC0 + col) % 256
    else address
  LCD_Command address s

/-- Embeds `void LCD_Init()`. -/
def LCD_Init (s : MCU) : MCU :=
  let s := delay_ms 20 s
  let s := LCD_Send4Bits 0x03 s
  let s := delay_ms 5 s
  let s := LCD_Send4Bits 0x03 s
  let s := delay_ms 5 s
  let s := LCD_Send4Bits 0x03 s
  let s := delay_ms 5 s
  let s := LCD_Send4Bits 0x02 s
  let s := delay_ms 5 s
  let s := LCD_Command 0x28 s
  let s := LCD_Command 0x0C s
  let s := LCD_Command 0x06 s
  let s := LCD_Command 0x01 s
  delay_ms 5 s

/-- Embeds `void LCD_CreateChar(unsigned char location, const uint8_t *pattern)`; `pattern i` is the
byte read by `pattern[i]`. -/
def LCD_CreateChar (location : Nat) (pattern : Nat → Nat) (s : MCU) : MCU :=
  let location := location % 256
  let location := (location &&& 0x07) % 256
  let s := LCD_Command (0x40 ||| (location <<< 3)) s
  (List.range 8).foldl (fun s i => LCD_Char (pattern i) s) s

end Custom_Characters

/-! ## `Hello_World.c` -/

namespace Hello_World

/-- Inner loop of `delay_ms`: `while (i--) { repeat #3; nop }`.
Returns the counter after the loop (the failing test still post-decrements, wrapping to 0xFFFF). -/
def delay_ms_inner : Nat → MCU → Nat × MCU
  | 0, s => (65535, s)
  | i + 1, s => delay_ms_inner i (spin s)

/-- Outer loop of `delay_ms`: `while (ms--) { uint16_t i = 1000; while (i--) ... }`. -/
def delay_ms_loop : Nat → MCU → Nat × MCU
  | 0, s => (65535, s)
  | ms + 1, s => delay_ms_loop ms (delay_ms_inner 1000 s).2

/-- Embeds `void delay_ms(uint16_t ms)`. -/
def delay_ms (ms : Nat) (s : MCU) : MCU :=
  let ms := ms % 65536
  (delay_ms_loop ms (emit (Event.delay_ms ms) s)).2

/-- Loop of `__delay_us`: `while (microseconds--) { repeat #12; nop }`. -/
def __delay_us_loop : Nat → MCU → Nat × MCU
  | 0, s => (65535, s)
  | microseconds + 1, s => __delay_us_loop microseconds (spin s)

/-- Embeds `void __delay_us(unsigned int microseconds)`. -/
def __delay_us (microseconds : Nat) (s : MCU) : MCU :=
  let microseconds := microseconds % 65536
  (__delay_us_loop microseconds (emit (Event.delay_us microseconds) s)).2

/-- Embeds `void LCD_EnablePulse()`. -/
def LCD_EnablePulse (s : MCU) : MCU :=
  let s := writePin Pin.EN 1 s
  let s := __delay_us 1 s
  let s := writePin Pin.EN 0 s
  __delay_us 1 s

/-- Embeds `void LCD_Send4Bits(unsigned char data)`. -/
def LCD_Send4Bits (data : Nat) (s : MCU) : MCU :=
  let data := data % 256
  let s := writePin Pin.D4 ((data >>> 0) &&& 0x01) s
  let s := writePin Pin.D5 ((data >>> 1) &&& 0x01) s
  let s := writePin Pin.D6 ((data >>> 2) &&& 0x01) s
  let s := writePin Pin.D7 ((data >>> 3) &&& 0x01) s
  LCD_EnablePulse s

/-- Embeds `void LCD_Command(unsigned char cmd)`. -/
def LCD_Command (cmd : Nat) (s : MCU) : MCU :=
  let cmd := cmd % 256
  let s := writePin Pin.RS 0 s
  let s := LCD_Send4Bits (cmd >>> 4) s
  let s := LCD_Send4Bits (cmd &&& 0x0F) s
  delay_ms 2 s

/-- Embeds `void LCD_Char(unsigned char data)`. -/
def LCD_Char (data : Nat) (s : MCU) : MCU :=
  let data := data % 256
  let s := writePin Pin.RS 1 s
  let s := LCD_Send4Bits (data >>> 4) s
  LCD_Send4Bits (data &&& 0x0F) s

/-- Embeds `void LCD_String(const char *str)`. The argument is the memory from `str` onwards, one
`char` value per cell; running off its end without meeting a NUL is an out-of-bounds read and
gives `none`. -/
def LCD_String : List Int → MCU → Option MCU
  | [], _ => none
  | c :: str, s => if c ≠ 0 then LCD_String str (LCD_Char (toUChar c) s) else some s

/-- Embeds `void LCD_SetCursor(unsigned char row, unsigned char col)`. The local `address` is declared
without initialiser; `address0` is the indeterminate value it holds before any assignment. -/
def LCD_SetCursor (address0 : Nat) (row col : Nat) (s : MCU) : MCU :=
  let row := row % 256
  let col := col % 256
  let address := address0 % 256
  let address :=
    if row = 1 then (0x80 + col) % 256
    else if row = 2 then (0xC0 + col) % 256
    else address
  LCD_Command address s

/-- Embeds `void LCD_Init()`. -/
def LCD_Init (s : MCU) : MCU :=
  let s := delay_ms 20 s
  let s := LCD_Send4Bits 0x03 s
  let s := delay_ms 5 s
  let s := LCD_Send4Bits 0x03 s
  let s := delay_ms 5 s
  let s := LCD_Send4Bits 0x03 s
  let s := delay_ms 5 s
  let s := LCD_Send4Bits 0x02 s
  let s := delay_ms 5 s
  let s := LCD_Command 0x28 s
  let s := LCD_Command 0x0C s
  let s := LCD_Command 0x06 s
  let s := LCD_Command 0x01 s
  delay_ms 5 s

end Hello_World

/-! ## Reading a trace

The vocabulary of the driver's contract: the pin-level shape of a nibble transfer, of a command
and of a character write, and what the controller latches from a waveform. -/

/-- Pin-level shape of one nibble transfer: the four data lines (least significant bit on D4),
then EN high, 1 us, EN low, 1 us. -/
def nibbleTransfer (n : Nat) : List Event :=
  [Event.write Pin.D4 (n % 2), Event.write Pin.D5 (n / 2 % 2),
   Event.write Pin.D6 (n / 4 % 2), Event.write Pin.D7 (n / 8 % 2),
   Event.write Pin.EN 1, Event.delay_us 1, Event.write Pin.EN 0, Event.delay_us 1]

/-- Pin-level shape of one command: RS low, high nibble, low nibble, 2 ms. -/
def commandFrame (b : Nat) : List Event :=
  Event.write Pin.RS 0 :: (nibbleTransfer (b >>> 4) ++ nibbleTransfer (b &&& 0x0F)
    ++ [Event.delay_ms 2])

/-- Pin-level shape of one character write: RS high, high nibble, low nibble. -/
def charFrame (c : Nat) : List Event :=
  Event.write Pin.RS 1 :: (nibbleTransfer (c >>> 4) ++ nibbleTransfer (c &&& 0x0F))

/-- The power-on handshake as a sequence of waits, nibble transfers and commands. -/
def initSequence : List Event :=
  [Event.delay_ms 20]
    ++ nibbleTransfer 0x03 ++ [Event.delay_ms 5]
    ++ nibbleTransfer 0x03 ++ [Event.delay_ms 5]
    ++ nibbleTransfer 0x03 ++ [Event.delay_ms 5]
    ++ nibbleTransfer 0x02 ++ [Event.delay_ms 5]
    ++ commandFrame 0x28 ++ commandFrame 0x0C ++ commandFrame 0x06 ++ commandFrame 0x01
    ++ [Event.delay_ms 5]

/-- The events a routine appended to the trace of the state `s` it started from. -/
def emitted (s s1 : MCU) : List Event :=
  s1.trace.drop s.trace.length

/-- The first glyph of the demo program, `ESAB[0]`, as the reads `pattern[i]` see it. -/
def glyph0 (i : Nat) : Nat :=
  [0b00001, 0b00010, 0b00100, 0b00111, 0b00000, 0b00111, 0b00100, 0b00110].getD i 0

/-- The eight character writes of `LCD_CreateChar`: `pattern[0]` .. `pattern[7]` in order,
each with the whole byte it is passed as. -/
def patternWrites (pattern : Nat → Nat) : List Event :=
  charFrame (pattern 0 % 256) ++ charFrame (pattern 1 % 256)
    ++ charFrame (pattern 2 % 256) ++ charFrame (pattern 3 % 256)
    ++ charFrame (pattern 4 % 256) ++ charFrame (pattern 5 % 256)
    ++ charFrame (pattern 6 % 256) ++ charFrame (pattern 7 % 256)

/-- The 4-bit value on the data lines, D7 most significant. -/
def Pins.nibble (p : Pins) : Nat :=
  p.D7 * 8 + p.D6 * 4 + p.D5 * 2 + p.D4

/-- Effect of one event on the latches. -/
def Pins.step (p : Pins) : Event → Pins
  | Event.write pin v => p.set pin v
  | _ => p

/-- The latches after a sequence of events. -/
def replay (p : Pins) (es : List Event) : Pins :=
  es.foldl Pins.step p

/-- What the controller latches: at every falling edge of EN, the level of RS and the nibble on
the data lines. -/
def latched : Pins → List Event → List (Nat × Nat)
  | _, [] => []
  | p, e :: es =>
    if p.EN ≠ 0 ∧ e = Event.write Pin.EN 0 then (p.RS, p.nibble) :: latched (p.step e) es
    else latched (p.step e) es

/-- The string literal `"Hi"` as stored: 'H', 'i', NUL. -/
def textHi : List Int :=
  [0x48, 0x69, 0]

/-- The scenario `LCD_Init(); LCD_SetCursor(1, 0); LCD_String("Hi");` on the routines of
`Hello_World.c`. -/
def scenarioHi (address0 : Nat) (s : MCU) : Option MCU :=
  let s := Hello_World.LCD_Init s
  let s := Hello_World.LCD_SetCursor address0 1 0 s
  Hello_World.LCD_String textHi s

/-! ## The demo programs -/

/-- Direction bits `TRISDbits.TRISD0` .. `TRISDbits.TRISD5` of the six LCD lines; 0 is output. -/
structure Tris where
  TRISD0 : Nat
  TRISD1 : Nat
  TRISD2 : Nat
  TRISD3 : Nat
  TRISD4 : Nat
  TRISD5 : Nat
  deriving DecidableEq, Repr

/-- The device as `main` sees it: the direction bits and the machine state. -/
structure Device where
  tris : Tris
  mcu : MCU
  deriving DecidableEq, Repr

/-- Embeds `LATD = v;`: one store to the whole latch register, recorded as the writes of the six
bits that drive the LCD (LATD0 = RS .. LATD5 = D7). -/
def writeLATD (v : Nat) (s : MCU) : MCU :=
  let v := v % 65536
  let s := writePin Pin.RS ((v >>> 0) &&& 0x01) s
  let s := writePin Pin.EN ((v >>> 1) &&& 0x01) s
  let s := writePin Pin.D4 ((v >>> 2) &&& 0x01) s
  let s := writePin Pin.D5 ((v >>> 3) &&& 0x01) s
  let s := writePin Pin.D6 ((v >>> 4) &&& 0x01) s
  writePin Pin.D7 ((v >>> 5) &&& 0x01) s

namespace Hello_World

/-- First part of `main`: the six `TRISDbits.TRISDn = 0;` and `LATD = 0x00;`. -/
def main_setup (d : Device) : Device :=
  let d := { d with tris := { d.tris with TRISD0 := 0 % 2 } }
  let d := { d with tris := { d.tris with TRISD1 := 0 % 2 } }
  let d := { d with tris := { d.tris with TRISD2 := 0 % 2 } }
  let d := { d with tris := { d.tris with TRISD3 := 0 % 2 } }
  let d := { d with tris := { d.tris with TRISD4 := 0 % 2 } }
  let d := { d with tris := { d.tris with TRISD5 := 0 % 2 } }
  { d with mcu := writeLATD 0x00 d.mcu }

/-- The string literal `"Hello, World!"` as stored, NUL included. -/
def textHello : List Int :=
  [0x48, 0x65, 0x6C, 0x6C, 0x6F, 0x2C, 0x20, 0x57, 0x6F, 0x72, 0x6C, 0x64, 0x21, 0]

/-- The string literal `"dsPIC Rocks!"` as stored, NUL included. -/
def textRocks : List Int :=
  [0x64, 0x73, 0x50, 0x49, 0x43, 0x20, 0x52, 0x6F, 0x63, 0x6B, 0x73, 0x21, 0]

/-- Second part of `main`, from `LCD_Init();` up to the idle loop `while (1) {}`. The two
arguments are the indeterminate initial values of `address` in the two `LCD_SetCursor` calls. -/
def main_body (a1 a2 : Nat) (s : MCU) : Option MCU :=
  let s := LCD_Init s
  let s := LCD_SetCursor a1 1 0 s
  match LCD_String textHello s with
  | none => none
  | some s =>
    let s := LCD_SetCursor a2 2 0 s
    LCD_String textRocks s

/-- Embeds `int main(void)`: the state in which the idle loop `while (1) {}` is entered. -/
def main (a1 a2 : Nat) (d : Device) : Option Device :=
  let d := main_setup d
  match main_body a1 a2 d.mcu with
  | none => none
  | some s => some { d with mcu := s }

end Hello_World

namespace Custom_Characters

/-- First part of `main`: the six `TRISDbits.TRISDn = 0;` and `LATD = 0x00;`. -/
def main_setup (d : Device) : Device :=
  let d := { d with tris := { d.tris with TRISD0 := 0 % 2 } }
  let d := { d with tris := { d.tris with TRISD1 := 0 % 2 } }
  let d := { d with tris := { d.tris with TRISD2 := 0 % 2 } }
  let d := { d with tris := { d.tris with TRISD3 := 0 % 2 } }
  let d := { d with tris := { d.tris with TRISD4 := 0 % 2 } }
  let d := { d with tris := { d.tris with TRISD5 := 0 % 2 } }
  { d with mcu := writeLATD 0x00 d.mcu }

/-- The table `uint8_t ESAB[8][8]` of `main`. -/
def ESAB : List (List Nat) :=
  [[0b00001, 0b00010, 0b00100, 0b00111, 0b00000, 0b00111, 0b00100, 0b00110],
   [0b11111, 0b00000, 0b00000, 0b11111, 0b00000, 0b01110, 0b01000, 0b01110],
   [0b11111, 0b00000, 0b00000, 0b11111, 0b00000, 0b11101, 0b10101, 0b11101],
   [0b11110, 0b00010, 0b00100, 0b11000, 0b00000, 0b10000, 0b01000, 0b11000],
   [0b00100, 0b00111, 0b00000, 0b00111, 0b01000, 0b10000, 0b11111, 0b00000],
   [0b00010, 0b01110, 0b00000, 0b11111, 0b00000, 0b00000, 0b11111, 0b00000],
   [0b10101, 0b10101, 0b00000, 0b11111, 0b00000, 0b00000, 0b11111, 0b00000],
   [0b01000, 0b10000, 0b00000, 0b11000, 0b01000, 0b10000, 0b00000, 0b00000]]

/-- The read `ESAB[k][i]`. -/
def ESAB_at (k i : Nat) : Nat :=
  (ESAB.getD k []).getD i 0

/-- Second part of `main`, from `LCD_Init();` up to the idle loop: the glyph loop over `k`, the
two cursor commands and the loops over `l` and `m`. -/
def main_body (a1 a2 : Nat) (s : MCU) : MCU :=
  let s := LCD_Init s
  let s := (List.range 8).foldl (fun s k => LCD_CreateChar k (ESAB_at k) s) s
  let s := LCD_SetCursor a1 1 6 s
  let s := (List.range 4).foldl (fun s l => LCD_Char l s) s
  let s := LCD_SetCursor a2 2 6 s
  (List.range' 4 4).foldl (fun s m => LCD_Char m s) s

/-- Embeds `int main(void)`: the state in which the idle loop `while (1) {}` is entered. -/
def main (a1 a2 : Nat) (d : Device) : Device :=
  let d := main_setup d
  { d with mcu := main_body a1 a2 d.mcu }

end Custom_Characters

/-! ## Reading a trace at the byte level -/

/-- One transfer at the command/character level. -/
inductive Frame where
  | command (b : Nat)
  | char (c : Nat)
  deriving DecidableEq, Repr

/-- Pin-level events of one transfer. -/
def Frame.events : Frame → List Event
  | Frame.command b => commandFrame b
  | Frame.char c => charFrame c

/-- Pin-level events of a sequence of transfers. -/
def render (fs : List Frame) : List Event :=
  fs.flatMap Frame.events

/-- Bytes assembled by the controller in 4-bit mode: latched nibbles are taken two at a time,
high nibble first, with the RS level of the first. -/
def bytesOf : List (Nat × Nat) → List (Nat × Nat)
  | (rs, hi) :: (_, lo) :: rest => (rs, hi * 16 + lo) :: bytesOf rest
  | _ => []

/-- The bytes the controller assembles from a waveform: `(0, b)` is command `b`, `(1, c)` is
data byte `c`. -/
def decoded (p : Pins) (es : List Event) : List (Nat × Nat) :=
  bytesOf (latched p es)

/-- For every character write of a sequence of transfers, the command most recently sent
before it (if any), paired with the byte written. -/
def addressed : Option Nat → List Frame → List (Option Nat × Nat)
  | _, [] => []
  | _, Frame.command b :: fs => addressed (some b) fs
  | a, Frame.char c :: fs => (a, c) :: addressed a fs

/-- What the `Custom_Characters` demo sends after the handshake: for each glyph `k` the command
`0x40 + 8 * k` and the eight bytes `ESAB[k][0..7]`, then command 0x86 and codes 0..3, then
command 0xC6 and codes 4..7. -/
def demoFrames : List Frame :=
  (List.range 8).flatMap (fun k =>
      Frame.command (0x40 + 8 * k)
        :: (List.range 8).map (fun i => Frame.char (Custom_Characters.ESAB_at k i)))
    ++ [Frame.command 0x86, Frame.char 0, Frame.char 1, Frame.char 2, Frame.char 3,
        Frame.command 0xC6, Frame.char 4, Frame.char 5, Frame.char 6, Frame.char 7]

/-- The first four nibble transfers of the handshake with their waits, before any command. -/
def initRecovery : List Event :=
  [Event.delay_ms 20]
    ++ nibbleTransfer 0x03 ++ [Event.delay_ms 5]
    ++ nibbleTransfer 0x03 ++ [Event.delay_ms 5]
    ++ nibbleTransfer 0x03 ++ [Event.delay_ms 5]
    ++ nibbleTransfer 0x02 ++ [Event.delay_ms 5]

/-- The six pin writes recorded for `LATD = 0x00;`. -/
def latdClear : List Event :=
  [Event.write Pin.RS 0, Event.write Pin.EN 0, Event.write Pin.D4 0, Event.write Pin.D5 0,
   Event.write Pin.D6 0, Event.write Pin.D7 0]

/-- The byte a transfer carries, as the controller reads it: `(0, b)` for command `b`,
`(1, c)` for data byte `c`. -/
def Frame.byte : Frame → Nat × Nat
  | Frame.command b => (0, b)
  | Frame.char c => (1, c)

/-- The commands among a sequence of transfers, in order. -/
def commandsOf : List Frame → List Nat
  | [] => []
  | Frame.command b :: fs => b :: commandsOf fs
  | Frame.char _ :: fs => commandsOf fs

/-! ## Enable-line discipline -/

/-- Where the enable line is within a pulse: low, just raised, or raised and held for 1 us. -/
inductive EnPhase where
  | low | raised | held
  deriving DecidableEq, Repr

/-- Phase in which a routine starts, from the level of EN on entry. -/
def EnPhase.ofLevel (en : Nat) : EnPhase :=
  if en = 0 then EnPhase.low else EnPhase.raised

/-- One event under the discipline: while EN is low anything may happen and raising EN counts
one rising edge; once raised, the only thing allowed is a wait of 1 us, and after that wait the
only thing allowed is lowering EN. `none` is a violation. -/
def EnPhase.next : EnPhase → Event → Option (EnPhase × Nat)
  | EnPhase.low, Event.write Pin.EN v =>
    if v = 0 then some (EnPhase.low, 0) else some (EnPhase.raised, 1)
  | EnPhase.low, _ => some (EnPhase.low, 0)
  | EnPhase.raised, Event.delay_us n => if n = 1 then some (EnPhase.held, 0) else none
  | EnPhase.raised, _ => none
  | EnPhase.held, Event.write Pin.EN v => if v = 0 then some (EnPhase.low, 0) else none
  | EnPhase.held, _ => none

/-- Runs the discipline over a sequence of events: the final phase and the number of rising
edges of EN, or `none` on a violation. -/
def EnPhase.run : EnPhase → List Event → Option (EnPhase × Nat)
  | ph, [] => some (ph, 0)
  | ph, e :: es =>
    match ph.next e with
    | none => none
    | some (ph1, k) =>
      match EnPhase.run ph1 es with
      | none => none
      | some (ph2, n) => some (ph2, k + n)

/-- A routine taking `s` to `s1` keeps the enable-line discipline with `k` nibble transfers: EN
is low on exit, the events it appended obey the discipline from the entry level of EN and end
with EN low after `k` rising edges, and the controller latches `k` nibbles. -/
def disciplined (s s1 : MCU) (k : Nat) : Prop :=
  s1.pins.EN = 0
    ∧ EnPhase.run (EnPhase.ofLevel s.pins.EN) (emitted s s1) = some (EnPhase.low, k)
    ∧ (latched s.pins (emitted s s1)).length = k

/-! ## Controller memory -/

/-- CGRAM address the controller writes at the `i`-th data write after the set-CGRAM-address
command `b`: the low six bits of `b`, auto-incremented in a six-bit counter. -/
def cgramCell (b i : Nat) : Nat :=
  ((b &&& 0x3F) + i) % 64

/-- A machine state with RS high and arbitrary data lines, used to instantiate the results. -/
def sampleState : MCU :=
  ⟨⟨1, 0, 0, 1, 0, 1⟩, [], 0⟩

/-- A device before `main`: all six lines still inputs, latches not yet cleared. -/
def sampleDevice : Device :=
  ⟨⟨1, 1, 1, 1, 1, 1⟩, sampleState⟩

/-! ## Closed forms of the routines -/

theorem and_one_eq_mod_two (x : Nat) : x &&& 1 = x % 2 :=
  Nat.and_one_is_mod x

theorem and_fifteen_eq_mod (x : Nat) : x &&& 15 = x % 16 :=
  Nat.and_pow_two_sub_one_eq_mod x 4

theorem and_seven_eq_mod (x : Nat) : x &&& 7 = x % 8 :=
  Nat.and_pow_two_sub_one_eq_mod x 3

theorem shiftRight_four_eq_div (x : Nat) : x >>> 4 = x / 16 := by
  simp [Nat.shiftRight_eq_div_pow]

namespace Custom_Characters

theorem delay_ms_inner_eq (i : Nat) (s : MCU) :
    delay_ms_inner i s = (65535, { s with spins := s.spins + i }) := by
  induction i generalizing s with
  | zero => simp [delay_ms_inner]
  | succ i ih => simp [delay_ms_inner, ih, spin]; omega

theorem delay_ms_loop_eq (ms : Nat) (s : MCU) :
    delay_ms_loop ms s = (65535, { s with spins := s.spins + 1000 * ms }) := by
  induction ms generalizing s with
  | zero => simp [delay_ms_loop]
  | succ ms ih => simp [delay_ms_loop, ih, delay_ms_inner_eq]; omega

theorem delay_ms_eq (ms : Nat) (s : MCU) :
    delay_ms ms s = { s with trace := s.trace ++ [Event.delay_ms (ms % 65536)],
                             spins := s.spins + 1000 * (ms % 65536) } := by
  simp [delay_ms, delay_ms_loop_eq, emit]

theorem delay_us_loop_eq (n : Nat) (s : MCU) :
    delay_us_loop n s = (65535, { s with spins := s.spins + n }) := by
  induction n generalizing s with
  | zero => simp [delay_us_loop]
  | succ n ih => simp [delay_us_loop, ih, spin]; omega

theorem delay_us_eq (n : Nat) (s : MCU) :
    delay_us n s = { s with trace := s.trace ++ [Event.delay_us (n % 65536)],
                            spins := s.spins + n % 65536 } := by
  simp [delay_us, delay_us_loop_eq, emit]

theorem LCD_Send4Bits_eq (d : Nat) (s : MCU) :
    LCD_Send4Bits d s =
      { pins := { RS := s.pins.RS, EN := 0, D4 := d % 2, D5 := d / 2 % 2,
                  D6 := d / 4 % 2, D7 := d / 8 % 2 },
        trace := s.trace ++ nibbleTransfer d,
        spins := s.spins + 2 } := by
  have h1 : d % 256 / 2 % 2 = d / 2 % 2 := by omega
  have h2 : d % 256 / 4 % 2 = d / 4 % 2 := by omega
  have h3 : d % 256 / 8 % 2 = d / 8 % 2 := by omega
  have h0 : d % 256 % 2 = d % 2 := by omega
  simp [LCD_Send4Bits, LCD_EnablePulse, delay_us_eq, writePin, Pins.set, nibbleTransfer,
    and_one_eq_mod_two, Nat.shiftRight_eq_div_pow, h0, h1, h2, h3]

theorem LCD_Command_eq (b : Nat) (s : MCU) :
    LCD_Command b s =
      { pins := { RS := 0, EN := 0, D4 := (b % 256 &&& 15) % 2, D5 := (b % 256 &&& 15) / 2 % 2,
                  D6 := (b % 256 &&& 15) / 4 % 2, D7 := (b % 256 &&& 15) / 8 % 2 },
        trace := s.trace ++ commandFrame (b % 256),
        spins := s.spins + 2004 } := by
  simp [LCD_Command, LCD_Send4Bits_eq, delay_ms_eq, writePin, Pins.set, commandFrame]

theorem LCD_Char_eq (c : Nat) (s : MCU) :
    LCD_Char c s =
      { pins := { RS := 1, EN := 0, D4 := (c % 256 &&& 15) % 2, D5 := (c % 256 &&& 15) / 2 % 2,
                  D6 := (c % 256 &&& 15) / 4 % 2, D7 := (c % 256 &&& 15) / 8 % 2 },
        trace := s.trace ++ charFrame (c % 256),
        spins := s.spins + 4 } := by
  simp [LCD_Char, LCD_Send4Bits_eq, writePin, Pins.set, charFrame]

theorem LCD_Char_trace (c : Nat) (s : MCU) :
    (LCD_Char c s).trace = s.trace ++ charFrame (c % 256) := by
  rw [LCD_Char_eq]

theorem LCD_Command_trace (b : Nat) (s : MCU) :
    (LCD_Command b s).trace = s.trace ++ commandFrame (b % 256) := by
  rw [LCD_Command_eq]

end Custom_Characters

/-! ## The routines of `Hello_World.c` agree with those of `Custom_Characters.c` -/

namespace Hello_World

theorem delay_ms_inner_cc (i : Nat) (s : MCU) :
    delay_ms_inner i s = Custom_Characters.delay_ms_inner i s := by
  induction i generalizing s with
  | zero => rfl
  | succ i ih => simp [delay_ms_inner, Custom_Characters.delay_ms_inner, ih]

theorem delay_ms_loop_cc (ms : Nat) (s : MCU) :
    delay_ms_loop ms s = Custom_Characters.delay_ms_loop ms s := by
  induction ms generalizing s with
  | zero => rfl
  | succ ms ih =>
    simp [delay_ms_loop, Custom_Characters.delay_ms_loop, ih, delay_ms_inner_cc]

theorem delay_ms_cc (ms : Nat) (s : MCU) : delay_ms ms s = Custom_Characters.delay_ms ms s := by
  simp [delay_ms, Custom_Characters.delay_ms, delay_ms_loop_cc]

theorem delay_us_loop_cc (n : Nat) (s : MCU) :
    __delay_us_loop n s = Custom_Characters.delay_us_loop n s := by
  induction n generalizing s with
  | zero => rfl
  | succ n ih => simp [__delay_us_loop, Custom_Characters.delay_us_loop, ih]

theorem delay_us_cc (n : Nat) (s : MCU) : __delay_us n s = Custom_Characters.delay_us n s := by
  simp [__delay_us, Custom_Characters.delay_us, delay_us_loop_cc]

theorem LCD_EnablePulse_cc (s : MCU) :
    LCD_EnablePulse s = Custom_Characters.LCD_EnablePulse s := by
  simp [LCD_EnablePulse, Custom_Characters.LCD_EnablePulse, delay_us_cc]

theorem LCD_Send4Bits_cc (d : Nat) (s : MCU) :
    LCD_Send4Bits d s = Custom_Characters.LCD_Send4Bits d s := by
  simp [LCD_Send4Bits, Custom_Characters.LCD_Send4Bits, LCD_EnablePulse_cc]

theorem LCD_Command_cc (b : Nat) (s : MCU) :
    LCD_Command b s = Custom_Characters.LCD_Command b s := by
  simp [LCD_Command, Custom_Characters.LCD_Command, LCD_Send4Bits_cc, delay_ms_cc]

theorem LCD_Char_cc (c : Nat) (s : MCU) : LCD_Char c s = Custom_Characters.LCD_Char c s := by
  simp [LCD_Char, Custom_Characters.LCD_Char, LCD_Send4Bits_cc]

theorem LCD_String_cc (str : List Int) (s : MCU) :
    LCD_String str s = Custom_Characters.LCD_String str s := by
  induction str generalizing s with
  | nil => rfl
  | cons c str ih => simp [LCD_String, Custom_Characters.LCD_String, ih, LCD_Char_cc]

theorem LCD_SetCursor_cc (a row col : Nat) (s : MCU) :
    LCD_SetCursor a row col s = Custom_Characters.LCD_SetCursor a row col s := by
  simp [LCD_SetCursor, Custom_Characters.LCD_SetCursor, LCD_Command_cc]

theorem LCD_Init_cc (s : MCU) : LCD_Init s = Custom_Characters.LCD_Init s := by
  simp [LCD_Init, Custom_Characters.LCD_Init, LCD_Command_cc, LCD_Send4Bits_cc, delay_ms_cc]

end Hello_World

/-! ## The driver's contract -/

theorem emitted_append (s s1 : MCU) (es : List Event) (h : s1.trace = s.trace ++ es) :
    emitted s s1 = es := by
  simp [emitted, h]

theorem Custom_Characters.LCD_Init_trace (s : MCU) :
    (Custom_Characters.LCD_Init s).trace = s.trace ++ initSequence := by
  simp [Custom_Characters.LCD_Init, Custom_Characters.LCD_Command_eq,
    Custom_Characters.LCD_Send4Bits_eq, Custom_Characters.delay_ms_eq, initSequence]

/-- C1: from any state, `LCD_Init` (in both files) appends exactly: wait 20 ms; nibble 0x03,
wait 5 ms (three times); nibble 0x02, wait 5 ms; commands 0x28, 0x0C, 0x06, 0x01; wait 5 ms. -/
theorem C1_LCD_Init_sequence (s : MCU) :
    (Custom_Characters.LCD_Init s).trace = s.trace ++ initSequence
    ∧ (Hello_World.LCD_Init s).trace = s.trace ++ initSequence
    ∧ initSequence =
        [Event.delay_ms 20]
          ++ nibbleTransfer 0x03 ++ [Event.delay_ms 5]
          ++ nibbleTransfer 0x03 ++ [Event.delay_ms 5]
          ++ nibbleTransfer 0x03 ++ [Event.delay_ms 5]
          ++ nibbleTransfer 0x02 ++ [Event.delay_ms 5]
          ++ commandFrame 0x28 ++ commandFrame 0x0C ++ commandFrame 0x06 ++ commandFrame 0x01
          ++ [Event.delay_ms 5] := by
  refine ⟨Custom_Characters.LCD_Init_trace s, ?_, rfl⟩
  rw [Hello_World.LCD_Init_cc]
  exact Custom_Characters.LCD_Init_trace s

/-- C2: for a byte `b`, `LCD_Command b` appends exactly: RS := 0; the nibble transfer of
`b >> 4`; the nibble transfer of `b & 0x0F`; wait 2 ms. Each nibble transfer ends with
EN := 1, 1 us, EN := 0, 1 us. -/
theorem C2_LCD_Command_frame (b : Nat) (hb : b < 256) (s : MCU) :
    (Custom_Characters.LCD_Command b s).trace
      = s.trace ++ (Event.write Pin.RS 0 ::
          (nibbleTransfer (b >>> 4) ++ nibbleTransfer (b &&& 0x0F) ++ [Event.delay_ms 2]))
    ∧ (∀ n, (nibbleTransfer n).drop 4
        = [Event.write Pin.EN 1, Event.delay_us 1, Event.write Pin.EN 0, Event.delay_us 1]) := by
  refine ⟨?_, fun n => rfl⟩
  rw [Custom_Characters.LCD_Command_trace, Nat.mod_eq_of_lt hb]
  rfl

theorem C2_LCD_Command_frame_witness :
    (Custom_Characters.LCD_Command 0x28 ⟨⟨1, 0, 1, 1, 1, 1⟩, [], 0⟩).trace
      = [] ++ (Event.write Pin.RS 0 ::
          (nibbleTransfer (0x28 >>> 4) ++ nibbleTransfer (0x28 &&& 0x0F) ++ [Event.delay_ms 2]))
    ∧ (∀ n, (nibbleTransfer n).drop 4
        = [Event.write Pin.EN 1, Event.delay_us 1, Event.write Pin.EN 0, Event.delay_us 1]) :=
  C2_LCD_Command_frame 0x28 (by decide) ⟨⟨1, 0, 1, 1, 1, 1⟩, [], 0⟩

/-- C3: for a byte `c`, `LCD_Char c` appends exactly: RS := 1; the nibble transfer of `c >> 4`;
the nibble transfer of `c & 0x0F`. Its last event is the 1 us wait closing the second enable
pulse, and it appends no millisecond wait. -/
theorem C3_LCD_Char_frame (c : Nat) (hc : c < 256) (s : MCU) :
    (Custom_Characters.LCD_Char c s).trace
      = s.trace ++ (Event.write Pin.RS 1 ::
          (nibbleTransfer (c >>> 4) ++ nibbleTransfer (c &&& 0x0F)))
    ∧ (emitted s (Custom_Characters.LCD_Char c s)).reverse.take 4
        = [Event.delay_us 1, Event.write Pin.EN 0, Event.delay_us 1, Event.write Pin.EN 1]
    ∧ ∀ ms, Event.delay_ms ms ∉ emitted s (Custom_Characters.LCD_Char c s) := by
  have h : (Custom_Characters.LCD_Char c s).trace = s.trace ++ charFrame c := by
    rw [Custom_Characters.LCD_Char_trace, Nat.mod_eq_of_lt hc]
  rw [emitted_append s _ _ h]
  refine ⟨h, ?_, ?_⟩
  · simp [charFrame, nibbleTransfer]
  · intro ms
    simp [charFrame, nibbleTransfer]

theorem C3_LCD_Char_frame_witness :
    (Custom_Characters.LCD_Char 0x48 ⟨⟨0, 0, 0, 0, 0, 0⟩, [], 0⟩).trace
      = [] ++ (Event.write Pin.RS 1 ::
          (nibbleTransfer (0x48 >>> 4) ++ nibbleTransfer (0x48 &&& 0x0F)))
    ∧ (emitted ⟨⟨0, 0, 0, 0, 0, 0⟩, [], 0⟩
          (Custom_Characters.LCD_Char 0x48 ⟨⟨0, 0, 0, 0, 0, 0⟩, [], 0⟩)).reverse.take 4
        = [Event.delay_us 1, Event.write Pin.EN 0, Event.delay_us 1, Event.write Pin.EN 1]
    ∧ ∀ ms, Event.delay_ms ms ∉ emitted ⟨⟨0, 0, 0, 0, 0, 0⟩, [], 0⟩
          (Custom_Characters.LCD_Char 0x48 ⟨⟨0, 0, 0, 0, 0, 0⟩, [], 0⟩) :=
  C3_LCD_Char_frame 0x48 (by decide) ⟨⟨0, 0, 0, 0, 0, 0⟩, [], 0⟩

/-- C4: for every argument `d`, `LCD_Send4Bits d` (in both files) appends exactly D4 := bit 0,
D5 := bit 1, D6 := bit 2, D7 := bit 3, EN := 1, 1 us, EN := 0, 1 us. It writes no RS, leaves RS
as it was, and ends with the low nibble of `d` on D7..D4 and EN = 0. -/
theorem C4_LCD_Send4Bits_frame (d : Nat) (s : MCU) :
    ((Custom_Characters.LCD_Send4Bits d s).trace
        = s.trace ++
          [Event.write Pin.D4 (d % 2), Event.write Pin.D5 (d / 2 % 2),
           Event.write Pin.D6 (d / 4 % 2), Event.write Pin.D7 (d / 8 % 2),
           Event.write Pin.EN 1, Event.delay_us 1, Event.write Pin.EN 0, Event.delay_us 1]
      ∧ (∀ v, Event.write Pin.RS v ∉ emitted s (Custom_Characters.LCD_Send4Bits d s))
      ∧ (Custom_Characters.LCD_Send4Bits d s).pins.RS = s.pins.RS
      ∧ (Custom_Characters.LCD_Send4Bits d s).pins.D4 = d % 2
      ∧ (Custom_Characters.LCD_Send4Bits d s).pins.D5 = d / 2 % 2
      ∧ (Custom_Characters.LCD_Send4Bits d s).pins.D6 = d / 4 % 2
      ∧ (Custom_Characters.LCD_Send4Bits d s).pins.D7 = d / 8 % 2
      ∧ (Custom_Characters.LCD_Send4Bits d s).pins.nibble = d % 16
      ∧ (Custom_Characters.LCD_Send4Bits d s).pins.EN = 0)
    ∧ Hello_World.LCD_Send4Bits d s = Custom_Characters.LCD_Send4Bits d s := by
  have h : (Custom_Characters.LCD_Send4Bits d s).trace = s.trace ++ nibbleTransfer d := by
    rw [Custom_Characters.LCD_Send4Bits_eq]
  refine ⟨⟨h, ?_, ?_, ?_, ?_, ?_, ?_, ?_, ?_⟩, Hello_World.LCD_Send4Bits_cc d s⟩
  · intro v
    rw [emitted_append s _ _ h]
    simp [nibbleTransfer]
  all_goals rw [Custom_Characters.LCD_Send4Bits_eq]
  · simp only [Pins.nibble]
    omega

/-- C5: for `col` in 0..39, `LCD_SetCursor(1, col)` (in both files) appends exactly the command
`0x80 + col` and `LCD_SetCursor(2, col)` exactly the command `0xC0 + col`; both bytes are below
256, so nothing wraps. -/
theorem C5_LCD_SetCursor_valid (address0 col : Nat) (hcol : col < 40) (s : MCU) :
    (Custom_Characters.LCD_SetCursor address0 1 col s).trace
        = s.trace ++ commandFrame (0x80 + col)
    ∧ (Custom_Characters.LCD_SetCursor address0 2 col s).trace
        = s.trace ++ commandFrame (0xC0 + col)
    ∧ (Hello_World.LCD_SetCursor address0 1 col s).trace
        = s.trace ++ commandFrame (0x80 + col)
    ∧ (Hello_World.LCD_SetCursor address0 2 col s).trace
        = s.trace ++ commandFrame (0xC0 + col)
    ∧ 0x80 + col < 256 ∧ 0xC0 + col < 256 := by
  have h1 : (Custom_Characters.LCD_SetCursor address0 1 col s).trace
      = s.trace ++ commandFrame (0x80 + col) := by
    have e : (128 + col) % 256 = 128 + col := by omega
    simp [Custom_Characters.LCD_SetCursor, Custom_Characters.LCD_Command_trace, e]
  have h2 : (Custom_Characters.LCD_SetCursor address0 2 col s).trace
      = s.trace ++ commandFrame (0xC0 + col) := by
    have e : (192 + col) % 256 = 192 + col := by omega
    simp [Custom_Characters.LCD_SetCursor, Custom_Characters.LCD_Command_trace, e]
  refine ⟨h1, h2, ?_, ?_, by omega, by omega⟩
  · rw [Hello_World.LCD_SetCursor_cc]; exact h1
  · rw [Hello_World.LCD_SetCursor_cc]; exact h2

theorem C5_LCD_SetCursor_valid_witness :
    (Custom_Characters.LCD_SetCursor 0 1 39 ⟨⟨0, 0, 0, 0, 0, 0⟩, [], 0⟩).trace
        = [] ++ commandFrame (0x80 + 39)
    ∧ (Custom_Characters.LCD_SetCursor 0 2 39 ⟨⟨0, 0, 0, 0, 0, 0⟩, [], 0⟩).trace
        = [] ++ commandFrame (0xC0 + 39)
    ∧ (Hello_World.LCD_SetCursor 0 1 39 ⟨⟨0, 0, 0, 0, 0, 0⟩, [], 0⟩).trace
        = [] ++ commandFrame (0x80 + 39)
    ∧ (Hello_World.LCD_SetCursor 0 2 39 ⟨⟨0, 0, 0, 0, 0, 0⟩, [], 0⟩).trace
        = [] ++ commandFrame (0xC0 + 39)
    ∧ 0x80 + 39 < 256 ∧ 0xC0 + 39 < 256 :=
  C5_LCD_SetCursor_valid 0 39 (by decide) ⟨⟨0, 0, 0, 0, 0, 0⟩, [], 0⟩

theorem Custom_Characters.LCD_CreateChar_trace (slot : Nat) (pattern : Nat → Nat) (s : MCU) :
    (Custom_Characters.LCD_CreateChar slot pattern s).trace
      = s.trace ++ commandFrame ((0x40 ||| (((slot % 256 &&& 0x07) % 256) <<< 3)) % 256)
          ++ charFrame (pattern 0 % 256) ++ charFrame (pattern 1 % 256)
          ++ charFrame (pattern 2 % 256) ++ charFrame (pattern 3 % 256)
          ++ charFrame (pattern 4 % 256) ++ charFrame (pattern 5 % 256)
          ++ charFrame (pattern 6 % 256) ++ charFrame (pattern 7 % 256) := by
  have r : List.range 8 = [0, 1, 2, 3, 4, 5, 6, 7] := by decide
  simp only [Custom_Characters.LCD_CreateChar, r, List.foldl,
    Custom_Characters.LCD_Char_trace, Custom_Characters.LCD_Command_trace]

/-- C6: for `slot` in 0..7 and an 8-byte pattern, `LCD_CreateChar` appends exactly the command
`0x40 | (slot << 3)` (which is `0x40 | slot*8`) followed by the eight character writes of
`pattern[0]` .. `pattern[7]`, in order, each with the whole byte. -/
theorem C6_LCD_CreateChar_frame (slot : Nat) (hslot : slot < 8) (pattern : Nat → Nat)
    (hpat : ∀ i, i < 8 → pattern i < 256) (s : MCU) :
    (Custom_Characters.LCD_CreateChar slot pattern s).trace
      = s.trace ++ commandFrame (0x40 ||| (slot <<< 3))
          ++ charFrame (pattern 0) ++ charFrame (pattern 1)
          ++ charFrame (pattern 2) ++ charFrame (pattern 3)
          ++ charFrame (pattern 4) ++ charFrame (pattern 5)
          ++ charFrame (pattern 6) ++ charFrame (pattern 7)
    ∧ 0x40 ||| (slot <<< 3) = 0x40 ||| (slot * 8) := by
  have e : (0x40 ||| (((slot % 256 &&& 0x07) % 256) <<< 3)) % 256 = 0x40 ||| (slot <<< 3) := by
    interval_cases slot <;> decide
  have m : ∀ i, i < 8 → pattern i % 256 = pattern i := fun i hi => Nat.mod_eq_of_lt (hpat i hi)
  refine ⟨?_, ?_⟩
  · rw [Custom_Characters.LCD_CreateChar_trace, e, m 0 (by omega), m 1 (by omega),
      m 2 (by omega), m 3 (by omega), m 4 (by omega), m 5 (by omega), m 6 (by omega),
      m 7 (by omega)]
  · interval_cases slot <;> decide

theorem C6_LCD_CreateChar_frame_witness :
    (Custom_Characters.LCD_CreateChar 3 glyph0 ⟨⟨0, 0, 0, 0, 0, 0⟩, [], 0⟩).trace
      = [] ++ commandFrame (0x40 ||| (3 <<< 3))
          ++ charFrame (glyph0 0) ++ charFrame (glyph0 1)
          ++ charFrame (glyph0 2) ++ charFrame (glyph0 3)
          ++ charFrame (glyph0 4) ++ charFrame (glyph0 5)
          ++ charFrame (glyph0 6) ++ charFrame (glyph0 7)
    ∧ 0x40 ||| (3 <<< 3) = 0x40 ||| (3 * 8) :=
  C6_LCD_CreateChar_frame 3 (by decide) glyph0
    (fun i hi => by interval_cases i <;> decide) ⟨⟨0, 0, 0, 0, 0, 0⟩, [], 0⟩

theorem wrapped_slot_byte (slot : Nat) :
    (0x40 ||| (((slot % 256 &&& 0x07) % 256) <<< 3)) % 256 = 0x40 ||| ((slot &&& 0x07) <<< 3) := by
  have hk : ∀ k, k < 8 → (0x40 ||| ((k % 256) <<< 3)) % 256 = 0x40 ||| (k <<< 3) := by decide
  have e : slot % 256 &&& 0x07 = slot % 8 := by
    rw [and_seven_eq_mod]
    omega
  rw [e, and_seven_eq_mod]
  exact hk (slot % 8) (Nat.mod_lt _ (by decide))

theorem wrapped_slot_value (slot : Nat) :
    0x40 ||| ((slot &&& 0x07) <<< 3) = 0x40 + 8 * (slot % 8) := by
  have hk : ∀ k, k < 8 → 0x40 ||| (k <<< 3) = 0x40 + 8 * k := by decide
  rw [and_seven_eq_mod]
  exact hk (slot % 8) (Nat.mod_lt _ (by decide))

theorem Custom_Characters.LCD_CreateChar_wrapped_trace (slot : Nat) (pattern : Nat → Nat)
    (s : MCU) :
    (Custom_Characters.LCD_CreateChar slot pattern s).trace
      = s.trace ++ commandFrame (0x40 ||| ((slot &&& 0x07) <<< 3)) ++ patternWrites pattern := by
  rw [Custom_Characters.LCD_CreateChar_trace, wrapped_slot_byte]
  simp only [patternWrites, List.append_assoc]

/-- C7: for every slot value, `LCD_CreateChar(slot, pattern)` is not rejected: it appends the
command `0x40 | ((slot & 0x07) << 3)`, which is `0x40 + 8 * (slot mod 8)`, and the eight
pattern bytes, and so ends in the same state, trace included, as
`LCD_CreateChar(slot & 0x07, pattern)`. The effective slot is below 8; slot 8 sends command
0x40 like slot 0 and slot 255 sends command 0x78 like slot 7. -/
theorem C7_LCD_CreateChar_wraps (slot : Nat) (pattern : Nat → Nat) (s : MCU) :
    Custom_Characters.LCD_CreateChar slot pattern s
      = Custom_Characters.LCD_CreateChar (slot &&& 0x07) pattern s
    ∧ slot &&& 0x07 < 8
    ∧ Custom_Characters.LCD_CreateChar 8 pattern s
        = Custom_Characters.LCD_CreateChar 0 pattern s
    ∧ Custom_Characters.LCD_CreateChar 255 pattern s
        = Custom_Characters.LCD_CreateChar 7 pattern s
    ∧ (Custom_Characters.LCD_CreateChar slot pattern s).trace
        = s.trace ++ commandFrame (0x40 ||| ((slot &&& 0x07) <<< 3))
            ++ charFrame (pattern 0 % 256) ++ charFrame (pattern 1 % 256)
            ++ charFrame (pattern 2 % 256) ++ charFrame (pattern 3 % 256)
            ++ charFrame (pattern 4 % 256) ++ charFrame (pattern 5 % 256)
            ++ charFrame (pattern 6 % 256) ++ charFrame (pattern 7 % 256)
    ∧ 0x40 ||| ((slot &&& 0x07) <<< 3) = 0x40 + 8 * (slot % 8)
    ∧ (Custom_Characters.LCD_CreateChar (slot &&& 0x07) pattern s).trace
        = s.trace ++ commandFrame (0x40 ||| ((slot &&& 0x07) <<< 3)) ++ patternWrites pattern
    ∧ (Custom_Characters.LCD_CreateChar 8 pattern s).trace
        = s.trace ++ commandFrame 0x40 ++ patternWrites pattern
    ∧ (Custom_Characters.LCD_CreateChar 0 pattern s).trace
        = s.trace ++ commandFrame 0x40 ++ patternWrites pattern
    ∧ (Custom_Characters.LCD_CreateChar 255 pattern s).trace
        = s.trace ++ commandFrame 0x78 ++ patternWrites pattern
    ∧ (Custom_Characters.LCD_CreateChar 7 pattern s).trace
        = s.trace ++ commandFrame 0x78 ++ patternWrites pattern := by
  have key : ∀ a b : Nat, a % 8 = b % 8 →
      Custom_Characters.LCD_CreateChar a pattern s
        = Custom_Characters.LCD_CreateChar b pattern s := by
    intro a b hab
    have e : (a % 256 &&& 0x07) % 256 = (b % 256 &&& 0x07) % 256 := by
      rw [and_seven_eq_mod, and_seven_eq_mod]
      omega
    simp only [Custom_Characters.LCD_CreateChar, e]
  have hw := Custom_Characters.LCD_CreateChar_wrapped_trace
  have hself : slot &&& 0x07 = slot % 8 := and_seven_eq_mod slot
  refine ⟨key _ _ ?_, ?_, key _ _ (by decide), key _ _ (by decide), ?_,
    wrapped_slot_value slot, ?_, hw 8 pattern s, hw 0 pattern s, hw 255 pattern s,
    hw 7 pattern s⟩
  · rw [hself]; omega
  · rw [hself]; omega
  · rw [Custom_Characters.LCD_CreateChar_trace, wrapped_slot_byte]
  · rw [← key slot (slot &&& 0x07) (by rw [hself]; omega)]
    exact hw slot pattern s

/-- C10: for a row byte other than 1 and 2, `LCD_SetCursor` (in both files) takes neither
branch: whatever `col` is, it does exactly what `LCD_Command` does on the value the
unassigned `address` happens to hold, appending that one command frame. -/
theorem C10_LCD_SetCursor_bad_row (address0 row col : Nat) (hrow : row < 256)
    (h1 : row ≠ 1) (h2 : row ≠ 2) (s : MCU) :
    Custom_Characters.LCD_SetCursor address0 row col s
        = Custom_Characters.LCD_Command (address0 % 256) s
    ∧ (Custom_Characters.LCD_SetCursor address0 row col s).trace
        = s.trace ++ commandFrame (address0 % 256)
    ∧ Hello_World.LCD_SetCursor address0 row col s
        = Hello_World.LCD_Command (address0 % 256) s
    ∧ (Hello_World.LCD_SetCursor address0 row col s).trace
        = s.trace ++ commandFrame (address0 % 256) := by
  have hr : row % 256 = row := Nat.mod_eq_of_lt hrow
  have e : Custom_Characters.LCD_SetCursor address0 row col s
      = Custom_Characters.LCD_Command (address0 % 256) s := by
    simp [Custom_Characters.LCD_SetCursor, hr, h1, h2]
  have t : (Custom_Characters.LCD_Command (address0 % 256) s).trace
      = s.trace ++ commandFrame (address0 % 256) := by
    rw [Custom_Characters.LCD_Command_trace, Nat.mod_mod]
  refine ⟨e, e ▸ t, ?_, ?_⟩
  · rw [Hello_World.LCD_SetCursor_cc, Hello_World.LCD_Command_cc]; exact e
  · rw [Hello_World.LCD_SetCursor_cc]; exact e ▸ t

theorem C10_LCD_SetCursor_bad_row_witness :
    Custom_Characters.LCD_SetCursor 0x5A 3 7 ⟨⟨1, 0, 0, 0, 0, 0⟩, [], 0⟩
        = Custom_Characters.LCD_Command (0x5A % 256) ⟨⟨1, 0, 0, 0, 0, 0⟩, [], 0⟩
    ∧ (Custom_Characters.LCD_SetCursor 0x5A 3 7 ⟨⟨1, 0, 0, 0, 0, 0⟩, [], 0⟩).trace
        = [] ++ commandFrame (0x5A % 256)
    ∧ Hello_World.LCD_SetCursor 0x5A 3 7 ⟨⟨1, 0, 0, 0, 0, 0⟩, [], 0⟩
        = Hello_World.LCD_Command (0x5A % 256) ⟨⟨1, 0, 0, 0, 0, 0⟩, [], 0⟩
    ∧ (Hello_World.LCD_SetCursor 0x5A 3 7 ⟨⟨1, 0, 0, 0, 0, 0⟩, [], 0⟩).trace
        = [] ++ commandFrame (0x5A % 256) :=
  C10_LCD_SetCursor_bad_row 0x5A 3 7 (by decide) (by decide) (by decide)
    ⟨⟨1, 0, 0, 0, 0, 0⟩, [], 0⟩

/-! ## What the controller latches -/

theorem toUChar_lt (c : Int) : toUChar c < 256 := by
  unfold toUChar
  omega

theorem replay_append (p : Pins) (a b : List Event) :
    replay p (a ++ b) = replay (replay p a) b := by
  simp [replay, List.foldl_append]

theorem latched_append (p : Pins) (a b : List Event) :
    latched p (a ++ b) = latched p a ++ latched (replay p a) b := by
  induction a generalizing p with
  | nil => simp [latched, replay]
  | cons e a ih =>
    by_cases h : p.EN ≠ 0 ∧ e = Event.write Pin.EN 0
    · simp [latched, replay, h, ih]
    · simp [latched, replay, h, ih]

theorem replay_nibbleTransfer (p : Pins) (n : Nat) :
    replay p (nibbleTransfer n)
      = { RS := p.RS, EN := 0, D4 := n % 2, D5 := n / 2 % 2, D6 := n / 4 % 2,
          D7 := n / 8 % 2 } := by
  simp [replay, nibbleTransfer, Pins.step, Pins.set]

theorem latched_nibbleTransfer (p : Pins) (n : Nat) :
    latched p (nibbleTransfer n) = [(p.RS, n % 16)] := by
  have h : n / 8 % 2 * 8 + n / 4 % 2 * 4 + n / 2 % 2 * 2 + n % 2 = n % 16 := by omega
  simp [latched, nibbleTransfer, Pins.step, Pins.set, Pins.nibble, h]

theorem latched_delay_ms (p : Pins) (ms : Nat) : latched p [Event.delay_ms ms] = [] := by
  simp [latched]

theorem latched_delay_ms_cons (p : Pins) (ms : Nat) (es : List Event) :
    latched p (Event.delay_ms ms :: es) = latched p es := by
  simp [latched, Pins.step]

theorem replay_delay_ms (p : Pins) (ms : Nat) : replay p [Event.delay_ms ms] = p := by
  simp [replay, Pins.step]

theorem replay_commandFrame (p : Pins) (b : Nat) :
    (replay p (commandFrame b)).RS = 0 ∧ (replay p (commandFrame b)).EN = 0 := by
  simp [replay, commandFrame, nibbleTransfer, Pins.step, Pins.set, List.foldl_append]

theorem latched_commandFrame (p : Pins) (b : Nat) :
    latched p (commandFrame b) = [(0, (b >>> 4) % 16), (0, (b &&& 0x0F) % 16)] := by
  have e : commandFrame b = [Event.write Pin.RS 0] ++ nibbleTransfer (b >>> 4)
      ++ nibbleTransfer (b &&& 0x0F) ++ [Event.delay_ms 2] := by
    simp [commandFrame]
  rw [e]
  simp only [latched_append, replay_append, latched_nibbleTransfer, replay_nibbleTransfer,
    latched_delay_ms]
  simp [latched, replay, Pins.step, Pins.set]

theorem replay_charFrame (p : Pins) (c : Nat) :
    (replay p (charFrame c)).RS = 1 ∧ (replay p (charFrame c)).EN = 0 := by
  simp [replay, charFrame, nibbleTransfer, Pins.step, Pins.set, List.foldl_append]

theorem latched_charFrame (p : Pins) (c : Nat) :
    latched p (charFrame c) = [(1, (c >>> 4) % 16), (1, (c &&& 0x0F) % 16)] := by
  have e : charFrame c = [Event.write Pin.RS 1] ++ nibbleTransfer (c >>> 4)
      ++ nibbleTransfer (c &&& 0x0F) := by
    simp [charFrame]
  rw [e]
  simp only [latched_append, replay_append, latched_nibbleTransfer, replay_nibbleTransfer]
  simp [latched, replay, Pins.step, Pins.set]

theorem latched_chars (p : Pins) (cs : List Nat) :
    latched p (cs.flatMap charFrame)
      = cs.flatMap (fun c => [(1, (c >>> 4) % 16), (1, (c &&& 0x0F) % 16)]) := by
  induction cs generalizing p with
  | nil => simp [latched]
  | cons c cs ih => simp [latched_append, latched_charFrame, ih]

theorem latched_chars_length (p : Pins) (bs : List Nat) :
    (latched p (bs.flatMap charFrame)).length = 2 * bs.length := by
  rw [latched_chars]
  induction bs with
  | nil => rfl
  | cons b bs ih =>
    rw [List.flatMap_cons, List.length_append, ih, List.length_cons]
    simp only [List.length_cons, List.length_nil]
    omega

theorem Custom_Characters.LCD_String_eq (cs rest : List Int) (hcs : ∀ c ∈ cs, c ≠ 0)
    (s : MCU) :
    Custom_Characters.LCD_String (cs ++ 0 :: rest) s
      = some (cs.foldl (fun s c => Custom_Characters.LCD_Char (toUChar c) s) s) := by
  induction cs generalizing s with
  | nil => simp [Custom_Characters.LCD_String]
  | cons c cs ih =>
    have hc : c ≠ 0 := hcs c (by simp)
    have hrest : ∀ d ∈ cs, d ≠ 0 := fun d hd => hcs d (by simp [hd])
    simp [Custom_Characters.LCD_String, hc, ih hrest]

theorem Custom_Characters.LCD_Char_foldl_trace (cs : List Int) (s : MCU) :
    (cs.foldl (fun s c => Custom_Characters.LCD_Char (toUChar c) s) s).trace
      = s.trace ++ (cs.map toUChar).flatMap charFrame := by
  induction cs generalizing s with
  | nil => simp
  | cons c cs ih =>
    simp [ih, Custom_Characters.LCD_Char_trace, Nat.mod_eq_of_lt (toUChar_lt c)]

/-- C8: on a text whose characters `cs` are followed by a NUL, `LCD_String` (in both files)
returns, and what it appended is the concatenation of the `LCD_Char` frames of the characters
before the NUL, each converted to `unsigned char`: the controller latches `2 * cs.length`
nibbles, there is no millisecond wait and no RS := 0, and the empty text appends nothing. -/
theorem C8_LCD_String_trace (cs rest : List Int) (hcs : ∀ c ∈ cs, c ≠ 0) (s : MCU) :
    ∃ s1, Custom_Characters.LCD_String (cs ++ 0 :: rest) s = some s1
      ∧ Hello_World.LCD_String (cs ++ 0 :: rest) s = some s1
      ∧ s1.trace = s.trace ++ (cs.map toUChar).flatMap charFrame
      ∧ (∀ c s0, emitted s0 (Custom_Characters.LCD_Char (toUChar c) s0) = charFrame (toUChar c))
      ∧ (∀ c, toUChar c = (c % 256).toNat)
      ∧ (latched s.pins (emitted s s1)).length = 2 * cs.length
      ∧ (∀ ms, Event.delay_ms ms ∉ emitted s s1)
      ∧ Event.write Pin.RS 0 ∉ emitted s s1
      ∧ Custom_Characters.LCD_String (0 :: rest) s = some s := by
  refine ⟨_, Custom_Characters.LCD_String_eq cs rest hcs s, ?_, ?_⟩
  · rw [Hello_World.LCD_String_cc]
    exact Custom_Characters.LCD_String_eq cs rest hcs s
  have ht := Custom_Characters.LCD_Char_foldl_trace cs s
  rw [emitted_append s _ _ ht]
  refine ⟨ht, ?_, fun _ => rfl, ?_, ?_, ?_, ?_⟩
  · intro c s0
    apply emitted_append
    rw [Custom_Characters.LCD_Char_trace, Nat.mod_eq_of_lt (toUChar_lt c)]
  · rw [latched_chars_length, List.length_map]
  · intro ms
    simp [charFrame, nibbleTransfer]
  · simp [charFrame, nibbleTransfer]
  · simp [Custom_Characters.LCD_String]

theorem C8_LCD_String_trace_witness :
    ∃ s1, Custom_Characters.LCD_String ([0x48, 0x69] ++ 0 :: [0x21])
          ⟨⟨0, 0, 0, 0, 0, 0⟩, [], 0⟩ = some s1
      ∧ Hello_World.LCD_String ([0x48, 0x69] ++ 0 :: [0x21])
          ⟨⟨0, 0, 0, 0, 0, 0⟩, [], 0⟩ = some s1
      ∧ s1.trace = [] ++ (([0x48, 0x69] : List Int).map toUChar).flatMap charFrame
      ∧ (∀ c s0, emitted s0 (Custom_Characters.LCD_Char (toUChar c) s0) = charFrame (toUChar c))
      ∧ (∀ c, toUChar c = (c % 256).toNat)
      ∧ (latched (⟨0, 0, 0, 0, 0, 0⟩ : Pins) (emitted ⟨⟨0, 0, 0, 0, 0, 0⟩, [], 0⟩ s1)).length
          = 2 * ([0x48, 0x69] : List Int).length
      ∧ (∀ ms, Event.delay_ms ms ∉ emitted ⟨⟨0, 0, 0, 0, 0, 0⟩, [], 0⟩ s1)
      ∧ Event.write Pin.RS 0 ∉ emitted ⟨⟨0, 0, 0, 0, 0, 0⟩, [], 0⟩ s1
      ∧ Custom_Characters.LCD_String (0 :: [0x21]) ⟨⟨0, 0, 0, 0, 0, 0⟩, [], 0⟩
          = some ⟨⟨0, 0, 0, 0, 0, 0⟩, [], 0⟩ :=
  C8_LCD_String_trace [0x48, 0x69] [0x21] (by decide) ⟨⟨0, 0, 0, 0, 0, 0⟩, [], 0⟩

theorem scenarioHi_eq (address0 : Nat) (s : MCU) :
    scenarioHi address0 s
      = some (Custom_Characters.LCD_Char 0x69 (Custom_Characters.LCD_Char 0x48
          (Custom_Characters.LCD_Command 0x80 (Custom_Characters.LCD_Init s)))) := by
  have h := Custom_Characters.LCD_String_eq [0x48, 0x69] [] (by decide)
    (Custom_Characters.LCD_SetCursor address0 1 0 (Custom_Characters.LCD_Init s))
  have e1 : toUChar 0x48 = 0x48 := by decide
  have e2 : toUChar 0x69 = 0x69 := by decide
  simp only [scenarioHi, textHi, Hello_World.LCD_String_cc, Hello_World.LCD_SetCursor_cc,
    Hello_World.LCD_Init_cc]
  simp only [List.cons_append, List.nil_append, List.foldl, e1, e2] at h
  rw [h]
  simp [Custom_Characters.LCD_SetCursor]

theorem scenarioHi_trace (s : MCU) :
    (Custom_Characters.LCD_Char 0x69 (Custom_Characters.LCD_Char 0x48
        (Custom_Characters.LCD_Command 0x80 (Custom_Characters.LCD_Init s)))).trace
      = s.trace ++ (initSequence ++ commandFrame 0x80 ++ charFrame 0x48 ++ charFrame 0x69) := by
  simp [Custom_Characters.LCD_Char_trace, Custom_Characters.LCD_Command_trace,
    Custom_Characters.LCD_Init_trace]

theorem scenarioHi_latched (p : Pins) :
    latched p (initSequence ++ commandFrame 0x80 ++ charFrame 0x48 ++ charFrame 0x69)
      = [(p.RS, 3), (p.RS, 3), (p.RS, 3), (p.RS, 2),
         (0, 2), (0, 8), (0, 0), (0, 12), (0, 0), (0, 6), (0, 0), (0, 1),
         (0, 8), (0, 0), (1, 4), (1, 8), (1, 6), (1, 9)] := by
  simp [initSequence, latched_append, replay_append, latched_nibbleTransfer,
    replay_nibbleTransfer, latched_delay_ms, latched_delay_ms_cons, replay_delay_ms,
    latched_commandFrame, latched_charFrame, and_fifteen_eq_mod]

/-- C9: after `LCD_Init(); LCD_SetCursor(1, 0); LCD_String("Hi");` from any state, the
controller has latched 18 nibbles; the last four are 4, 8, 6, 9 with RS = 1 (bytes 0x48, 0x69),
and the two before them are 8, 0 with RS = 0 (command 0x80). -/
theorem C9_scenario_Hi (address0 : Nat) (s : MCU) :
    ∃ s1, scenarioHi address0 s = some s1
      ∧ latched s.pins (emitted s s1)
          = [(s.pins.RS, 3), (s.pins.RS, 3), (s.pins.RS, 3), (s.pins.RS, 2),
             (0, 2), (0, 8), (0, 0), (0, 12), (0, 0), (0, 6), (0, 0), (0, 1),
             (0, 8), (0, 0), (1, 4), (1, 8), (1, 6), (1, 9)]
      ∧ (latched s.pins (emitted s s1)).length = 18
      ∧ 3 + 1 + 4 * 2 + 2 + 2 * 2 = 18
      ∧ (latched s.pins (emitted s s1)).drop 14 = [(1, 0x4), (1, 0x8), (1, 0x6), (1, 0x9)]
      ∧ ((latched s.pins (emitted s s1)).drop 12).take 2 = [(0, 0x8), (0, 0x0)] := by
  refine ⟨_, scenarioHi_eq address0 s, ?_⟩
  rw [emitted_append s _ _ (scenarioHi_trace s), scenarioHi_latched]
  simp

/-! ## Unchecked columns, equal drivers, the demo programs -/

theorem Custom_Characters.LCD_SetCursor_row1 (address0 col : Nat) (s : MCU) :
    Custom_Characters.LCD_SetCursor address0 1 col s
      = Custom_Characters.LCD_Command ((0x80 + col) % 256) s := by
  have e : (128 + col % 256) % 256 = (128 + col) % 256 := by omega
  simp [Custom_Characters.LCD_SetCursor, e]

theorem Custom_Characters.LCD_SetCursor_row2 (address0 col : Nat) (s : MCU) :
    Custom_Characters.LCD_SetCursor address0 2 col s
      = Custom_Characters.LCD_Command ((0xC0 + col) % 256) s := by
  have e : (192 + col % 256) % 256 = (192 + col) % 256 := by omega
  simp [Custom_Characters.LCD_SetCursor, e]

/-- C11: the column is added to the row base in 8-bit arithmetic with no bounds check: for
every column `col` (0..255 included), rows 1 and 2 append exactly the command `(0x80 + col) mod 256` and
`(0xC0 + col) mod 256`. For `c` in 0..63, `LCD_SetCursor(1, c + 64)` does what
`LCD_SetCursor(2, c)` does, whose byte is `0xC0 + c`, and `LCD_SetCursor(2, 64)` sends 0x00. -/
theorem C11_LCD_SetCursor_unchecked_col (address0 col : Nat) (c : Nat) (hc : c < 64)
    (s : MCU) :
    (Custom_Characters.LCD_SetCursor address0 1 col s).trace
        = s.trace ++ commandFrame ((0x80 + col) % 256)
    ∧ (Custom_Characters.LCD_SetCursor address0 2 col s).trace
        = s.trace ++ commandFrame ((0xC0 + col) % 256)
    ∧ Custom_Characters.LCD_SetCursor address0 1 (c + 64) s
        = Custom_Characters.LCD_SetCursor address0 2 c s
    ∧ (Custom_Characters.LCD_SetCursor address0 1 (c + 64) s).trace
        = s.trace ++ commandFrame (0xC0 + c)
    ∧ (Custom_Characters.LCD_SetCursor address0 2 c s).trace
        = s.trace ++ commandFrame (0xC0 + c)
    ∧ (Custom_Characters.LCD_SetCursor address0 2 64 s).trace
        = s.trace ++ commandFrame 0x00 := by
  have e1 : (0x80 + (c + 64)) % 256 = 0xC0 + c := by omega
  have e2 : (0xC0 + c) % 256 = 0xC0 + c := by omega
  refine ⟨?_, ?_, ?_, ?_, ?_, ?_⟩
  · rw [Custom_Characters.LCD_SetCursor_row1, Custom_Characters.LCD_Command_trace, Nat.mod_mod]
  · rw [Custom_Characters.LCD_SetCursor_row2, Custom_Characters.LCD_Command_trace, Nat.mod_mod]
  · rw [Custom_Characters.LCD_SetCursor_row1, Custom_Characters.LCD_SetCursor_row2, e1, e2]
  · rw [Custom_Characters.LCD_SetCursor_row1, Custom_Characters.LCD_Command_trace, e1, e2]
  · rw [Custom_Characters.LCD_SetCursor_row2, Custom_Characters.LCD_Command_trace, e2, e2]
  · rw [Custom_Characters.LCD_SetCursor_row2, Custom_Characters.LCD_Command_trace]

theorem C11_LCD_SetCursor_unchecked_col_witness :
    (Custom_Characters.LCD_SetCursor 0 1 200 ⟨⟨0, 0, 0, 0, 0, 0⟩, [], 0⟩).trace
        = [] ++ commandFrame ((0x80 + 200) % 256)
    ∧ (Custom_Characters.LCD_SetCursor 0 2 200 ⟨⟨0, 0, 0, 0, 0, 0⟩, [], 0⟩).trace
        = [] ++ commandFrame ((0xC0 + 200) % 256)
    ∧ Custom_Characters.LCD_SetCursor 0 1 (5 + 64) ⟨⟨0, 0, 0, 0, 0, 0⟩, [], 0⟩
        = Custom_Characters.LCD_SetCursor 0 2 5 ⟨⟨0, 0, 0, 0, 0, 0⟩, [], 0⟩
    ∧ (Custom_Characters.LCD_SetCursor 0 1 (5 + 64) ⟨⟨0, 0, 0, 0, 0, 0⟩, [], 0⟩).trace
        = [] ++ commandFrame (0xC0 + 5)
    ∧ (Custom_Characters.LCD_SetCursor 0 2 5 ⟨⟨0, 0, 0, 0, 0, 0⟩, [], 0⟩).trace
        = [] ++ commandFrame (0xC0 + 5)
    ∧ (Custom_Characters.LCD_SetCursor 0 2 64 ⟨⟨0, 0, 0, 0, 0, 0⟩, [], 0⟩).trace
        = [] ++ commandFrame 0x00 :=
  C11_LCD_SetCursor_unchecked_col 0 200 5 (by decide) ⟨⟨0, 0, 0, 0, 0, 0⟩, [], 0⟩

theorem writeLATD_zero (s : MCU) :
    writeLATD 0x00 s
      = { s with pins := ⟨0, 0, 0, 0, 0, 0⟩, trace := s.trace ++ latdClear } := by
  simp [writeLATD, writePin, Pins.set, latdClear]

theorem latched_nil (p : Pins) : latched p [] = [] := by
  simp [latched]

theorem initSequence_split :
    initSequence = initRecovery ++ (commandFrame 0x28 ++ commandFrame 0x0C
      ++ commandFrame 0x06 ++ commandFrame 0x01 ++ [Event.delay_ms 5]) := by
  simp [initSequence, initRecovery]

theorem initRecovery_latched (p : Pins) :
    latched p initRecovery = [(p.RS, 3), (p.RS, 3), (p.RS, 3), (p.RS, 2)] := by
  simp [initRecovery, latched_append, replay_append, latched_nibbleTransfer,
    replay_nibbleTransfer, latched_delay_ms, latched_delay_ms_cons, replay_delay_ms,
    latched_nil]

theorem initSequence_latched (p : Pins) :
    latched p initSequence
      = [(p.RS, 3), (p.RS, 3), (p.RS, 3), (p.RS, 2),
         (0, 2), (0, 8), (0, 0), (0, 12), (0, 0), (0, 6), (0, 0), (0, 1)] := by
  simp [initSequence, latched_append, replay_append, latched_nibbleTransfer,
    replay_nibbleTransfer, latched_delay_ms, latched_delay_ms_cons, replay_delay_ms,
    latched_commandFrame, and_fifteen_eq_mod, latched_nil]

theorem Custom_Characters.LCD_Init_emitted (s : MCU) :
    emitted s (Custom_Characters.LCD_Init s) = initSequence :=
  emitted_append s _ _ (Custom_Characters.LCD_Init_trace s)

theorem Custom_Characters.LCD_Char_foldl_RS (cs : List Int) (hne : cs ≠ []) (s : MCU) :
    (cs.foldl (fun s c => Custom_Characters.LCD_Char (toUChar c) s) s).pins.RS = 1 := by
  induction cs generalizing s with
  | nil => exact absurd rfl hne
  | cons c cs ih =>
    by_cases h : cs = []
    · subst h
      simp [Custom_Characters.LCD_Char_eq]
    · simpa using ih h (Custom_Characters.LCD_Char (toUChar c) s)

theorem Hello_World.hello_body_trace (a1 a2 : Nat) (s : MCU) :
    ∃ s1, Hello_World.main_body a1 a2 s = some s1
      ∧ s1.trace = s.trace ++ (initSequence ++ commandFrame 0x80
          ++ (Hello_World.textHello.dropLast.map toUChar).flatMap charFrame
          ++ commandFrame 0xC0
          ++ (Hello_World.textRocks.dropLast.map toUChar).flatMap charFrame) := by
  have e1 : Hello_World.textHello = Hello_World.textHello.dropLast ++ 0 :: [] := by decide
  have e2 : Hello_World.textRocks = Hello_World.textRocks.dropLast ++ 0 :: [] := by decide
  have h1 := fun s => Custom_Characters.LCD_String_eq Hello_World.textHello.dropLast []
    (by decide) s
  have h2 := fun s => Custom_Characters.LCD_String_eq Hello_World.textRocks.dropLast []
    (by decide) s
  rw [← e1] at h1
  rw [← e2] at h2
  have hb : Hello_World.main_body a1 a2 s
      = some (Hello_World.textRocks.dropLast.foldl
          (fun s c => Custom_Characters.LCD_Char (toUChar c) s)
          (Custom_Characters.LCD_SetCursor a2 2 0
            (Hello_World.textHello.dropLast.foldl
              (fun s c => Custom_Characters.LCD_Char (toUChar c) s)
              (Custom_Characters.LCD_SetCursor a1 1 0 (Custom_Characters.LCD_Init s))))) := by
    simp only [Hello_World.main_body, Hello_World.LCD_String_cc, Hello_World.LCD_SetCursor_cc,
      Hello_World.LCD_Init_cc, h1, h2]
  refine ⟨_, hb, ?_⟩
  simp [Custom_Characters.LCD_Char_foldl_trace, Custom_Characters.LCD_SetCursor_row1,
    Custom_Characters.LCD_SetCursor_row2, Custom_Characters.LCD_Command_trace,
    Custom_Characters.LCD_Init_trace]

theorem Hello_World.hello_setup_eq (d : Device) :
    Hello_World.main_setup d
      = { tris := ⟨0, 0, 0, 0, 0, 0⟩,
          mcu := { d.mcu with pins := ⟨0, 0, 0, 0, 0, 0⟩, trace := d.mcu.trace ++ latdClear } } := by
  simp [Hello_World.main_setup, writeLATD_zero]

theorem Custom_Characters.main_setup_eq (d : Device) :
    Custom_Characters.main_setup d
      = { tris := ⟨0, 0, 0, 0, 0, 0⟩,
          mcu := { d.mcu with pins := ⟨0, 0, 0, 0, 0, 0⟩, trace := d.mcu.trace ++ latdClear } } := by
  simp [Custom_Characters.main_setup, writeLATD_zero]

theorem render_append (a b : List Frame) : render (a ++ b) = render a ++ render b := by
  simp [render]

theorem Custom_Characters.LCD_CreateChar_frames (slot : Nat) (pattern : Nat → Nat) (s : MCU) :
    (Custom_Characters.LCD_CreateChar slot pattern s).trace
      = s.trace ++ render (Frame.command ((0x40 ||| (((slot % 256 &&& 0x07) % 256) <<< 3)) % 256)
          :: (List.range 8).map (fun i => Frame.char (pattern i % 256))) := by
  have r8 : List.range 8 = [0, 1, 2, 3, 4, 5, 6, 7] := by decide
  rw [Custom_Characters.LCD_CreateChar_trace, r8]
  simp only [List.map, render, List.flatMap_cons, List.flatMap_nil, Frame.events,
    List.append_assoc, List.append_nil]

theorem glyph_frames_eq :
    ∀ k, k < 8 →
      (Frame.command ((0x40 ||| (((k % 256 &&& 0x07) % 256) <<< 3)) % 256)
          :: (List.range 8).map (fun i => Frame.char (Custom_Characters.ESAB_at k i % 256)))
        = Frame.command (0x40 + 8 * k)
          :: (List.range 8).map (fun i => Frame.char (Custom_Characters.ESAB_at k i)) := by
  decide

theorem Custom_Characters.glyph_loop_trace (ks : List Nat) (hks : ∀ k ∈ ks, k < 8) (s : MCU) :
    (ks.foldl (fun s k => Custom_Characters.LCD_CreateChar k (Custom_Characters.ESAB_at k) s)
        s).trace
      = s.trace ++ render (ks.flatMap (fun k =>
          Frame.command (0x40 + 8 * k)
            :: (List.range 8).map (fun i => Frame.char (Custom_Characters.ESAB_at k i)))) := by
  induction ks generalizing s with
  | nil => simp [render]
  | cons k ks ih =>
    have hk : k < 8 := hks k (by simp)
    have hrest : ∀ j ∈ ks, j < 8 := fun j hj => hks j (by simp [hj])
    rw [List.foldl_cons, ih hrest, Custom_Characters.LCD_CreateChar_frames,
      glyph_frames_eq k hk, List.flatMap_cons, render_append, List.append_assoc]

theorem commandFrame_render (b : Nat) : commandFrame b = render [Frame.command b] := by
  simp [render, Frame.events]

theorem append_render_render (l : List Event) (a b : List Frame) :
    (l ++ render a) ++ render b = l ++ render (a ++ b) := by
  rw [render_append, List.append_assoc]

theorem Custom_Characters.char_loop_trace (cs : List Nat) (s : MCU) :
    (cs.foldl (fun s c => Custom_Characters.LCD_Char c s) s).trace
      = s.trace ++ render (cs.map (fun c => Frame.char (c % 256))) := by
  induction cs generalizing s with
  | nil => simp [render]
  | cons c cs ih =>
    rw [List.foldl_cons, ih, Custom_Characters.LCD_Char_trace, List.map_cons, List.append_assoc]
    simp [render, Frame.events]

theorem demoFrames_eq :
    (List.range 8).flatMap (fun k =>
        Frame.command (0x40 + 8 * k)
          :: (List.range 8).map (fun i => Frame.char (Custom_Characters.ESAB_at k i)))
      ++ ([Frame.command ((0x80 + 6) % 256 % 256)]
        ++ ((List.range 4).map (fun c => Frame.char (c % 256))
          ++ ([Frame.command ((0xC0 + 6) % 256 % 256)]
            ++ (List.range' 4 4).map (fun c => Frame.char (c % 256)))))
    = demoFrames := by
  decide

theorem Custom_Characters.main_body_trace (a1 a2 : Nat) (s : MCU) :
    (Custom_Characters.main_body a1 a2 s).trace
      = s.trace ++ (initSequence ++ render demoFrames) := by
  simp only [Custom_Characters.main_body]
  rw [Custom_Characters.char_loop_trace, Custom_Characters.LCD_SetCursor_row2,
    Custom_Characters.LCD_Command_trace, Custom_Characters.char_loop_trace,
    Custom_Characters.LCD_SetCursor_row1, Custom_Characters.LCD_Command_trace,
    Custom_Characters.glyph_loop_trace (List.range 8) (fun k hk => List.mem_range.mp hk),
    Custom_Characters.LCD_Init_trace, commandFrame_render, commandFrame_render,
    append_render_render, append_render_render, append_render_render, append_render_render,
    demoFrames_eq, List.append_assoc]

/-- C12: `LCD_Init` writes no RS before its fifth nibble transfer (its first RS write opens
`LCD_Command(0x28)`), so its first four nibbles are latched with the RS level of entry and the
other eight with RS = 0. Both `main` programs clear the direction bits and `LATD` before
`LCD_Init`, so there all twelve are latched with RS = 0. Called right after `LCD_Char`, or after
`LCD_String` of a non-empty text, which leave RS = 1, the first four are latched with RS = 1. -/
theorem C12_LCD_Init_RS_on_entry (s : MCU) (d : Device) (a1 a2 c : Nat) (cs rest : List Int)
    (hne : cs ≠ []) (hcs : ∀ x ∈ cs, x ≠ 0) :
    (emitted s (Custom_Characters.LCD_Init s)
        = initRecovery ++ (commandFrame 0x28 ++ commandFrame 0x0C ++ commandFrame 0x06
            ++ commandFrame 0x01 ++ [Event.delay_ms 5])
      ∧ (∀ v, Event.write Pin.RS v ∉ initRecovery)
      ∧ (commandFrame 0x28).head? = some (Event.write Pin.RS 0)
      ∧ latched s.pins initRecovery
          = [(s.pins.RS, 3), (s.pins.RS, 3), (s.pins.RS, 3), (s.pins.RS, 2)]
      ∧ latched s.pins (emitted s (Custom_Characters.LCD_Init s))
          = [(s.pins.RS, 3), (s.pins.RS, 3), (s.pins.RS, 3), (s.pins.RS, 2),
             (0, 2), (0, 8), (0, 0), (0, 12), (0, 0), (0, 6), (0, 0), (0, 1)])
    ∧ ((Hello_World.main_setup d).tris = ⟨0, 0, 0, 0, 0, 0⟩
      ∧ (Hello_World.main_setup d).mcu.pins = ⟨0, 0, 0, 0, 0, 0⟩
      ∧ (∃ d1 after, Hello_World.main a1 a2 d = some d1
          ∧ d1.mcu.trace = (Hello_World.LCD_Init (Hello_World.main_setup d).mcu).trace ++ after)
      ∧ latched (Hello_World.main_setup d).mcu.pins
          (emitted (Hello_World.main_setup d).mcu
            (Hello_World.LCD_Init (Hello_World.main_setup d).mcu))
          = [(0, 3), (0, 3), (0, 3), (0, 2),
             (0, 2), (0, 8), (0, 0), (0, 12), (0, 0), (0, 6), (0, 0), (0, 1)])
    ∧ ((Custom_Characters.main_setup d).tris = ⟨0, 0, 0, 0, 0, 0⟩
      ∧ (Custom_Characters.main_setup d).mcu.pins = ⟨0, 0, 0, 0, 0, 0⟩
      ∧ (∃ after, (Custom_Characters.main a1 a2 d).mcu.trace
          = (Custom_Characters.LCD_Init (Custom_Characters.main_setup d).mcu).trace ++ after)
      ∧ latched (Custom_Characters.main_setup d).mcu.pins
          (emitted (Custom_Characters.main_setup d).mcu
            (Custom_Characters.LCD_Init (Custom_Characters.main_setup d).mcu))
          = [(0, 3), (0, 3), (0, 3), (0, 2),
             (0, 2), (0, 8), (0, 0), (0, 12), (0, 0), (0, 6), (0, 0), (0, 1)])
    ∧ ((Custom_Characters.LCD_Char c s).pins.RS = 1
      ∧ (latched (Custom_Characters.LCD_Char c s).pins
          (emitted (Custom_Characters.LCD_Char c s)
            (Custom_Characters.LCD_Init (Custom_Characters.LCD_Char c s)))).take 4
          = [(1, 3), (1, 3), (1, 3), (1, 2)])
    ∧ (∃ s1, Custom_Characters.LCD_String (cs ++ 0 :: rest) s = some s1
      ∧ s1.pins.RS = 1
      ∧ (latched s1.pins (emitted s1 (Custom_Characters.LCD_Init s1))).take 4
          = [(1, 3), (1, 3), (1, 3), (1, 2)]) := by
  refine ⟨⟨?_, ?_, rfl, initRecovery_latched _, ?_⟩, ⟨?_, ?_, ?_, ?_⟩, ⟨?_, ?_, ?_, ?_⟩,
    ⟨?_, ?_⟩, ?_⟩
  · rw [Custom_Characters.LCD_Init_emitted, initSequence_split]
  · intro v
    simp [initRecovery, nibbleTransfer]
  · rw [Custom_Characters.LCD_Init_emitted, initSequence_latched]
  · rw [Hello_World.hello_setup_eq]
  · rw [Hello_World.hello_setup_eq]
  · obtain ⟨s1, h1, h2⟩ := Hello_World.hello_body_trace a1 a2 (Hello_World.main_setup d).mcu
    refine ⟨{ Hello_World.main_setup d with mcu := s1 },
      commandFrame 0x80
        ++ (Hello_World.textHello.dropLast.map toUChar).flatMap charFrame
        ++ commandFrame 0xC0
        ++ (Hello_World.textRocks.dropLast.map toUChar).flatMap charFrame, ?_, ?_⟩
    · simp only [Hello_World.main, h1]
    · show s1.trace = _
      rw [h2, Hello_World.LCD_Init_cc, Custom_Characters.LCD_Init_trace]
      simp only [List.append_assoc]
  · rw [Hello_World.LCD_Init_cc, Custom_Characters.LCD_Init_emitted, initSequence_latched,
      Hello_World.hello_setup_eq]
  · rw [Custom_Characters.main_setup_eq]
  · rw [Custom_Characters.main_setup_eq]
  · refine ⟨render demoFrames, ?_⟩
    show (Custom_Characters.main_body a1 a2 (Custom_Characters.main_setup d).mcu).trace = _
    rw [Custom_Characters.main_body_trace, Custom_Characters.LCD_Init_trace,
      List.append_assoc]
  · rw [Custom_Characters.LCD_Init_emitted, initSequence_latched,
      Custom_Characters.main_setup_eq]
  · rw [Custom_Characters.LCD_Char_eq]
  · rw [Custom_Characters.LCD_Init_emitted, initSequence_latched,
      Custom_Characters.LCD_Char_eq]
    rfl
  · refine ⟨_, Custom_Characters.LCD_String_eq cs rest hcs s, ?_, ?_⟩
    · exact Custom_Characters.LCD_Char_foldl_RS cs hne s
    · rw [Custom_Characters.LCD_Init_emitted, initSequence_latched,
        Custom_Characters.LCD_Char_foldl_RS cs hne s]
      rfl

theorem C12_LCD_Init_RS_on_entry_witness :
    (emitted sampleState (Custom_Characters.LCD_Init sampleState)
        = initRecovery ++ (commandFrame 0x28 ++ commandFrame 0x0C ++ commandFrame 0x06
            ++ commandFrame 0x01 ++ [Event.delay_ms 5])
      ∧ (∀ v, Event.write Pin.RS v ∉ initRecovery)
      ∧ (commandFrame 0x28).head? = some (Event.write Pin.RS 0)
      ∧ latched sampleState.pins initRecovery
          = [(sampleState.pins.RS, 3), (sampleState.pins.RS, 3), (sampleState.pins.RS, 3), (sampleState.pins.RS, 2)]
      ∧ latched sampleState.pins (emitted sampleState (Custom_Characters.LCD_Init sampleState))
          = [(sampleState.pins.RS, 3), (sampleState.pins.RS, 3), (sampleState.pins.RS, 3), (sampleState.pins.RS, 2),
             (0, 2), (0, 8), (0, 0), (0, 12), (0, 0), (0, 6), (0, 0), (0, 1)])
    ∧ ((Hello_World.main_setup sampleDevice).tris = ⟨0, 0, 0, 0, 0, 0⟩
      ∧ (Hello_World.main_setup sampleDevice).mcu.pins = ⟨0, 0, 0, 0, 0, 0⟩
      ∧ (∃ d1 after, Hello_World.main 0 0 sampleDevice = some d1
          ∧ d1.mcu.trace = (Hello_World.LCD_Init (Hello_World.main_setup sampleDevice).mcu).trace ++ after)
      ∧ latched (Hello_World.main_setup sampleDevice).mcu.pins
          (emitted (Hello_World.main_setup sampleDevice).mcu
            (Hello_World.LCD_Init (Hello_World.main_setup sampleDevice).mcu))
          = [(0, 3), (0, 3), (0, 3), (0, 2),
             (0, 2), (0, 8), (0, 0), (0, 12), (0, 0), (0, 6), (0, 0), (0, 1)])
    ∧ ((Custom_Characters.main_setup sampleDevice).tris = ⟨0, 0, 0, 0, 0, 0⟩
      ∧ (Custom_Characters.main_setup sampleDevice).mcu.pins = ⟨0, 0, 0, 0, 0, 0⟩
      ∧ (∃ after, (Custom_Characters.main 0 0 sampleDevice).mcu.trace
          = (Custom_Characters.LCD_Init (Custom_Characters.main_setup sampleDevice).mcu).trace ++ after)
      ∧ latched (Custom_Characters.main_setup sampleDevice).mcu.pins
          (emitted (Custom_Characters.main_setup sampleDevice).mcu
            (Custom_Characters.LCD_Init (Custom_Characters.main_setup sampleDevice).mcu))
          = [(0, 3), (0, 3), (0, 3), (0, 2),
             (0, 2), (0, 8), (0, 0), (0, 12), (0, 0), (0, 6), (0, 0), (0, 1)])
    ∧ ((Custom_Characters.LCD_Char 0x41 sampleState).pins.RS = 1
      ∧ (latched (Custom_Characters.LCD_Char 0x41 sampleState).pins
          (emitted (Custom_Characters.LCD_Char 0x41 sampleState)
            (Custom_Characters.LCD_Init (Custom_Characters.LCD_Char 0x41 sampleState)))).take 4
          = [(1, 3), (1, 3), (1, 3), (1, 2)])
    ∧ (∃ s1, Custom_Characters.LCD_String (([0x48, 0x69] : List Int) ++ 0 :: ([] : List Int)) sampleState = some s1
      ∧ s1.pins.RS = 1
      ∧ (latched s1.pins (emitted s1 (Custom_Characters.LCD_Init s1))).take 4
          = [(1, 3), (1, 3), (1, 3), (1, 2)]) :=
  C12_LCD_Init_RS_on_entry sampleState sampleDevice 0 0 0x41 [0x48, 0x69] [] (by decide)
    (by decide)

/-- C13: the routines of `Hello_World.c` and of `Custom_Characters.c` end in the same state
(trace and pins) from every state and for every argument: the two delays (`__delay_us` against
`delay_us`), `LCD_EnablePulse`, `LCD_Send4Bits`, `LCD_Command`, `LCD_Char`, `LCD_String`,
`LCD_SetCursor` on rows 1 and 2 (whatever the unassigned `address` held in either program) and
`LCD_Init`. -/
theorem C13_drivers_agree (s : MCU) (ms n d b c col a a1 : Nat) (str : List Int) :
    Hello_World.delay_ms ms s = Custom_Characters.delay_ms ms s
    ∧ Hello_World.__delay_us n s = Custom_Characters.delay_us n s
    ∧ Hello_World.LCD_EnablePulse s = Custom_Characters.LCD_EnablePulse s
    ∧ Hello_World.LCD_Send4Bits d s = Custom_Characters.LCD_Send4Bits d s
    ∧ Hello_World.LCD_Command b s = Custom_Characters.LCD_Command b s
    ∧ Hello_World.LCD_Char c s = Custom_Characters.LCD_Char c s
    ∧ Hello_World.LCD_String str s = Custom_Characters.LCD_String str s
    ∧ Hello_World.LCD_SetCursor a 1 col s = Custom_Characters.LCD_SetCursor a1 1 col s
    ∧ Hello_World.LCD_SetCursor a 2 col s = Custom_Characters.LCD_SetCursor a1 2 col s
    ∧ Hello_World.LCD_Init s = Custom_Characters.LCD_Init s
    ∧ ((Hello_World.LCD_Init s).trace = (Custom_Characters.LCD_Init s).trace
      ∧ (Hello_World.LCD_Init s).pins = (Custom_Characters.LCD_Init s).pins) := by
  refine ⟨Hello_World.delay_ms_cc ms s, Hello_World.delay_us_cc n s,
    Hello_World.LCD_EnablePulse_cc s, Hello_World.LCD_Send4Bits_cc d s,
    Hello_World.LCD_Command_cc b s, Hello_World.LCD_Char_cc c s,
    Hello_World.LCD_String_cc str s, ?_, ?_, Hello_World.LCD_Init_cc s, ?_⟩
  · rw [Hello_World.LCD_SetCursor_cc, Custom_Characters.LCD_SetCursor_row1,
      Custom_Characters.LCD_SetCursor_row1]
  · rw [Hello_World.LCD_SetCursor_cc, Custom_Characters.LCD_SetCursor_row2,
      Custom_Characters.LCD_SetCursor_row2]
  · rw [Hello_World.LCD_Init_cc]
    exact ⟨rfl, rfl⟩

theorem byte_of_nibbles (b : Nat) (hb : b < 256) :
    (b >>> 4) % 16 * 16 + (b &&& 0x0F) % 16 = b := by
  rw [and_fifteen_eq_mod, shiftRight_four_eq_div]
  omega

theorem decoded_render (fs : List Frame) (h : ∀ f ∈ fs, f.byte.2 < 256) (p : Pins) :
    decoded p (render fs) = fs.map Frame.byte := by
  induction fs generalizing p with
  | nil => simp [decoded, render, latched_nil, bytesOf]
  | cons f fs ih =>
    have hf : f.byte.2 < 256 := h f (by simp)
    have hrest : ∀ g ∈ fs, g.byte.2 < 256 := fun g hg => h g (by simp [hg])
    have step : render (f :: fs) = f.events ++ render fs := by simp [render]
    have ih1 := ih hrest (replay p f.events)
    unfold decoded at ih1 ⊢
    rw [step, latched_append]
    cases f with
    | command b =>
      simp only [Frame.events, Frame.byte] at hf ⊢
      rw [latched_commandFrame]
      simp only [List.cons_append, List.nil_append, bytesOf, List.map_cons, Frame.byte,
        byte_of_nibbles b hf]
      simp only [Frame.events] at ih1
      exact congrArg _ ih1
    | char c =>
      simp only [Frame.events, Frame.byte] at hf ⊢
      rw [latched_charFrame]
      simp only [List.cons_append, List.nil_append, bytesOf, List.map_cons, Frame.byte,
        byte_of_nibbles c hf]
      simp only [Frame.events] at ih1
      exact congrArg _ ih1

theorem Custom_Characters.main_emitted (a1 a2 : Nat) (d : Device) :
    emitted (Custom_Characters.LCD_Init (Custom_Characters.main_setup d).mcu)
      (Custom_Characters.main a1 a2 d).mcu = render demoFrames := by
  apply emitted_append
  show (Custom_Characters.main_body a1 a2 (Custom_Characters.main_setup d).mcu).trace = _
  rw [Custom_Characters.main_body_trace, Custom_Characters.LCD_Init_trace, List.append_assoc]

/-- C14: in the `Custom_Characters` program, what follows `LCD_Init` is, at the byte level: for
`k` = 0..7 the command `0x40 + 8 * k` and the bytes `ESAB[k][0..7]`, then command 0x86 and the
codes 0, 1, 2, 3, then command 0xC6 and the codes 4, 5, 6, 7. The 64 pattern bytes are written
after a set-CGRAM-address command; the 8 glyph codes are written after a command with bit 7
set, sent after the last set-CGRAM-address command 0x78. -/
theorem C14_demo_readdresses (a1 a2 : Nat) (d : Device) :
    emitted (Custom_Characters.LCD_Init (Custom_Characters.main_setup d).mcu)
        (Custom_Characters.main a1 a2 d).mcu = render demoFrames
    ∧ decoded (Custom_Characters.LCD_Init (Custom_Characters.main_setup d).mcu).pins
        (emitted (Custom_Characters.LCD_Init (Custom_Characters.main_setup d).mcu)
          (Custom_Characters.main a1 a2 d).mcu) = demoFrames.map Frame.byte
    ∧ demoFrames.map Frame.byte
        = (List.range 8).flatMap (fun k =>
            (0, 0x40 + 8 * k)
              :: (List.range 8).map (fun i => (1, Custom_Characters.ESAB_at k i)))
          ++ [(0, 0x86), (1, 0), (1, 1), (1, 2), (1, 3),
              (0, 0xC6), (1, 4), (1, 5), (1, 6), (1, 7)]
    ∧ commandsOf demoFrames
        = [0x40, 0x48, 0x50, 0x58, 0x60, 0x68, 0x70, 0x78, 0x86, 0xC6]
    ∧ (addressed none demoFrames).length = 72
    ∧ (∀ x ∈ (addressed none demoFrames).take 64,
        ∃ k, k < 8 ∧ x.1 = some (0x40 + 8 * k))
    ∧ (addressed none demoFrames).drop 64
        = [(some 0x86, 0), (some 0x86, 1), (some 0x86, 2), (some 0x86, 3),
           (some 0xC6, 4), (some 0xC6, 5), (some 0xC6, 6), (some 0xC6, 7)]
    ∧ 0x86 / 128 % 2 = 1 ∧ 0xC6 / 128 % 2 = 1 ∧ 0x78 / 128 % 2 = 0 ∧ 0x78 / 64 % 2 = 1 := by
  have hbytes : ∀ f ∈ demoFrames, f.byte.2 < 256 := by decide
  refine ⟨Custom_Characters.main_emitted a1 a2 d, ?_, by decide, by decide, by decide, ?_,
    by decide, by decide, by decide, by decide, by decide⟩
  · rw [Custom_Characters.main_emitted, decoded_render demoFrames hbytes]
  · have h : ∀ x ∈ (addressed none demoFrames).take 64,
        x.1 ∈ [some 0x40, some 0x48, some 0x50, some 0x58, some 0x60, some 0x68, some 0x70,
          some 0x78] := by decide
    intro x hx
    have hx1 := h x hx
    simp only [List.mem_cons, List.mem_singleton, List.not_mem_nil, or_false] at hx1
    rcases hx1 with e | e | e | e | e | e | e | e
    · exact ⟨0, by decide, e⟩
    · exact ⟨1, by decide, e⟩
    · exact ⟨2, by decide, e⟩
    · exact ⟨3, by decide, e⟩
    · exact ⟨4, by decide, e⟩
    · exact ⟨5, by decide, e⟩
    · exact ⟨6, by decide, e⟩
    · exact ⟨7, by decide, e⟩

/-- C15: the delay routines run their full count and return: for `ms` in 0..65535 `delay_ms(ms)`
executes its inner loop body exactly `1000 * ms` times (1000 per pass of the outer loop, none
for 0), and for `n` in 0..65535 `delay_us(n)` / `__delay_us(n)` executes its body exactly `n`
times. Each loop leaves its counter at 0xFFFF, the wrap of the last post-decrement, and that
wrap adds no iteration. -/
theorem C15_delays_run_full (ms n : Nat) (hms : ms < 65536) (hn : n < 65536) (s : MCU) :
    (Custom_Characters.delay_ms ms s).spins = s.spins + 1000 * ms
    ∧ (Hello_World.delay_ms ms s).spins = s.spins + 1000 * ms
    ∧ Custom_Characters.delay_ms_inner 1000 s = (65535, { s with spins := s.spins + 1000 })
    ∧ Custom_Characters.delay_ms_loop ms s = (65535, { s with spins := s.spins + 1000 * ms })
    ∧ (Custom_Characters.delay_ms 0 s).spins = s.spins
    ∧ (Custom_Characters.delay_us n s).spins = s.spins + n
    ∧ (Hello_World.__delay_us n s).spins = s.spins + n
    ∧ Custom_Characters.delay_us_loop n s = (65535, { s with spins := s.spins + n })
    ∧ Hello_World.__delay_us_loop n s = (65535, { s with spins := s.spins + n }) := by
  have e1 : (Custom_Characters.delay_ms ms s).spins = s.spins + 1000 * ms := by
    rw [Custom_Characters.delay_ms_eq, Nat.mod_eq_of_lt hms]
  have e2 : (Custom_Characters.delay_us n s).spins = s.spins + n := by
    rw [Custom_Characters.delay_us_eq, Nat.mod_eq_of_lt hn]
  refine ⟨e1, ?_, Custom_Characters.delay_ms_inner_eq 1000 s,
    Custom_Characters.delay_ms_loop_eq ms s, ?_, e2, ?_,
    Custom_Characters.delay_us_loop_eq n s, ?_⟩
  · rw [Hello_World.delay_ms_cc]; exact e1
  · rw [Custom_Characters.delay_ms_eq]
    rfl
  · rw [Hello_World.delay_us_cc]; exact e2
  · rw [Hello_World.delay_us_loop_cc]; exact Custom_Characters.delay_us_loop_eq n s

theorem C15_delays_run_full_witness :
    (Custom_Characters.delay_ms 20 sampleState).spins = sampleState.spins + 1000 * 20
    ∧ (Hello_World.delay_ms 20 sampleState).spins = sampleState.spins + 1000 * 20
    ∧ Custom_Characters.delay_ms_inner 1000 sampleState
        = (65535, { sampleState with spins := sampleState.spins + 1000 })
    ∧ Custom_Characters.delay_ms_loop 20 sampleState
        = (65535, { sampleState with spins := sampleState.spins + 1000 * 20 })
    ∧ (Custom_Characters.delay_ms 0 sampleState).spins = sampleState.spins
    ∧ (Custom_Characters.delay_us 65535 sampleState).spins = sampleState.spins + 65535
    ∧ (Hello_World.__delay_us 65535 sampleState).spins = sampleState.spins + 65535
    ∧ Custom_Characters.delay_us_loop 65535 sampleState
        = (65535, { sampleState with spins := sampleState.spins + 65535 })
    ∧ Hello_World.__delay_us_loop 65535 sampleState
        = (65535, { sampleState with spins := sampleState.spins + 65535 }) :=
  C15_delays_run_full 20 65535 (by decide) (by decide) sampleState

/-! ## Enable pulses -/

theorem EnPhase.run_append (a b : List Event) (ph ph1 : EnPhase) (k : Nat)
    (h : EnPhase.run ph a = some (ph1, k)) :
    EnPhase.run ph (a ++ b) = (EnPhase.run ph1 b).map (fun r => (r.1, k + r.2)) := by
  induction a generalizing ph k with
  | nil =>
    simp only [EnPhase.run, Option.some.injEq, Prod.mk.injEq] at h
    obtain ⟨h1, h2⟩ := h
    subst h1 h2
    cases hb : EnPhase.run ph b <;> simp [hb]
  | cons e a ih =>
    simp only [List.cons_append, EnPhase.run, List.append_eq] at h ⊢
    cases hn : ph.next e with
    | none => simp [hn] at h
    | some r =>
      obtain ⟨ph2, k2⟩ := r
      simp only [hn] at h ⊢
      cases hr : EnPhase.run ph2 a with
      | none => simp [hr] at h
      | some r2 =>
        obtain ⟨ph3, k3⟩ := r2
        simp only [hr, Option.some.injEq, Prod.mk.injEq] at h
        obtain ⟨h1, h2⟩ := h
        subst h1 h2
        rw [ih ph2 k3 hr]
        cases hb : EnPhase.run ph3 b with
        | none => simp
        | some r3 => simp [Nat.add_assoc]

theorem EnPhase.run_low_append (a b : List Event) (ka kb : Nat)
    (ha : EnPhase.run EnPhase.low a = some (EnPhase.low, ka))
    (hb : EnPhase.run EnPhase.low b = some (EnPhase.low, kb)) :
    EnPhase.run EnPhase.low (a ++ b) = some (EnPhase.low, ka + kb) := by
  rw [EnPhase.run_append a b _ _ _ ha, hb]
  rfl

theorem discipline_rejects :
    EnPhase.run EnPhase.low [Event.write Pin.EN 1, Event.write Pin.D4 1] = none
    ∧ EnPhase.run EnPhase.low [Event.write Pin.EN 1, Event.delay_us 1, Event.write Pin.RS 1]
        = none
    ∧ EnPhase.run EnPhase.low [Event.write Pin.EN 1, Event.delay_us 2] = none
    ∧ EnPhase.run EnPhase.low [Event.write Pin.EN 1, Event.write Pin.EN 0] = none
    ∧ EnPhase.run (EnPhase.ofLevel 1) (nibbleTransfer 5) = none := by
  decide

theorem run_nibbleTransfer (n : Nat) :
    EnPhase.run EnPhase.low (nibbleTransfer n) = some (EnPhase.low, 1) := by
  simp [nibbleTransfer, EnPhase.run, EnPhase.next]

theorem run_commandFrame (b : Nat) :
    EnPhase.run EnPhase.low (commandFrame b) = some (EnPhase.low, 2) := by
  simp [commandFrame, nibbleTransfer, EnPhase.run, EnPhase.next]

theorem run_charFrame (c : Nat) :
    EnPhase.run EnPhase.low (charFrame c) = some (EnPhase.low, 2) := by
  simp [charFrame, nibbleTransfer, EnPhase.run, EnPhase.next]

theorem run_initSequence :
    EnPhase.run EnPhase.low initSequence = some (EnPhase.low, 12) := by
  decide

theorem run_render (fs : List Frame) :
    EnPhase.run EnPhase.low (render fs) = some (EnPhase.low, 2 * fs.length) := by
  induction fs with
  | nil => simp [render, EnPhase.run]
  | cons f fs ih =>
    have step : render (f :: fs) = f.events ++ render fs := by simp [render]
    have hf : EnPhase.run EnPhase.low f.events = some (EnPhase.low, 2) := by
      cases f with
      | command b => exact run_commandFrame b
      | char c => exact run_charFrame c
    rw [step, EnPhase.run_low_append _ _ _ _ hf ih, List.length_cons]
    congr 2
    omega

theorem latched_render_length (fs : List Frame) (p : Pins) :
    (latched p (render fs)).length = 2 * fs.length := by
  induction fs generalizing p with
  | nil => simp [render, latched_nil]
  | cons f fs ih =>
    have step : render (f :: fs) = f.events ++ render fs := by simp [render]
    rw [step, latched_append, List.length_append, ih, List.length_cons]
    cases f with
    | command b => simp only [Frame.events, latched_commandFrame, List.length_cons,
        List.length_nil]; omega
    | char c => simp only [Frame.events, latched_charFrame, List.length_cons,
        List.length_nil]; omega

theorem chars_render (bs : List Nat) : bs.flatMap charFrame = render (bs.map Frame.char) := by
  induction bs with
  | nil => rfl
  | cons b bs ih =>
    simp only [render, List.flatMap_cons, List.map_cons] at ih ⊢
    rw [ih]
    rfl

theorem disciplined_of_trace (s s1 : MCU) (es : List Event) (k : Nat) (hEN : s.pins.EN = 0)
    (ht : s1.trace = s.trace ++ es) (h1 : s1.pins.EN = 0)
    (hr : EnPhase.run EnPhase.low es = some (EnPhase.low, k))
    (hl : (latched s.pins es).length = k) : disciplined s s1 k := by
  unfold disciplined
  rw [emitted_append s s1 es ht, hEN]
  exact ⟨h1, hr, hl⟩

theorem Custom_Characters.LCD_Init_EN (s : MCU) : (Custom_Characters.LCD_Init s).pins.EN = 0 := by
  simp [Custom_Characters.LCD_Init, Custom_Characters.delay_ms_eq,
    Custom_Characters.LCD_Command_eq]

theorem Custom_Characters.LCD_CreateChar_EN (slot : Nat) (pattern : Nat → Nat) (s : MCU) :
    (Custom_Characters.LCD_CreateChar slot pattern s).pins.EN = 0 := by
  have r8 : List.range 8 = [0, 1, 2, 3, 4, 5, 6, 7] := by decide
  simp only [Custom_Characters.LCD_CreateChar, r8, List.foldl]
  rw [Custom_Characters.LCD_Char_eq]

theorem Custom_Characters.LCD_Char_foldl_EN (cs : List Int) (s : MCU) (hEN : s.pins.EN = 0) :
    (cs.foldl (fun s c => Custom_Characters.LCD_Char (toUChar c) s) s).pins.EN = 0 := by
  induction cs generalizing s with
  | nil => exact hEN
  | cons c cs ih =>
    rw [List.foldl_cons]
    apply ih
    rw [Custom_Characters.LCD_Char_eq]

theorem Custom_Characters.LCD_Command_disciplined (b : Nat) (s : MCU) (hEN : s.pins.EN = 0) :
    disciplined s (Custom_Characters.LCD_Command b s) 2 := by
  apply disciplined_of_trace s _ _ 2 hEN (Custom_Characters.LCD_Command_trace b s)
  · rw [Custom_Characters.LCD_Command_eq]
  · exact run_commandFrame _
  · rw [latched_commandFrame]; rfl

/-- C16: entered with EN low, each of `LCD_Send4Bits`, `LCD_Command`, `LCD_Char`, `LCD_String`,
`LCD_SetCursor`, `LCD_Init` and `LCD_CreateChar` leaves EN low, writes RS and the data lines only
while EN is low, keeps EN high only across one 1 us wait, and raises EN exactly once per nibble
transfer (1, 2, 2, two per character, 2, 12 and 18 times). -/
theorem C16_enable_discipline (s : MCU) (hEN : s.pins.EN = 0) (d b c a row col slot : Nat)
    (pattern : Nat → Nat) (cs rest : List Int) (hcs : ∀ x ∈ cs, x ≠ 0) :
    disciplined s (Custom_Characters.LCD_Send4Bits d s) 1
    ∧ disciplined s (Custom_Characters.LCD_Command b s) 2
    ∧ disciplined s (Custom_Characters.LCD_Char c s) 2
    ∧ (∃ s1, Custom_Characters.LCD_String (cs ++ 0 :: rest) s = some s1
        ∧ disciplined s s1 (2 * cs.length))
    ∧ disciplined s (Custom_Characters.LCD_SetCursor a row col s) 2
    ∧ disciplined s (Custom_Characters.LCD_Init s) 12
    ∧ disciplined s (Custom_Characters.LCD_CreateChar slot pattern s) 18 := by
  refine ⟨?_, Custom_Characters.LCD_Command_disciplined b s hEN, ?_, ?_, ?_, ?_, ?_⟩
  · have ht : (Custom_Characters.LCD_Send4Bits d s).trace = s.trace ++ nibbleTransfer d := by
      rw [Custom_Characters.LCD_Send4Bits_eq]
    apply disciplined_of_trace s _ _ 1 hEN ht
    · rw [Custom_Characters.LCD_Send4Bits_eq]
    · exact run_nibbleTransfer d
    · rw [latched_nibbleTransfer]; rfl
  · apply disciplined_of_trace s _ _ 2 hEN (Custom_Characters.LCD_Char_trace c s)
    · rw [Custom_Characters.LCD_Char_eq]
    · exact run_charFrame _
    · rw [latched_charFrame]; rfl
  · refine ⟨_, Custom_Characters.LCD_String_eq cs rest hcs s, ?_⟩
    have ht := Custom_Characters.LCD_Char_foldl_trace cs s
    rw [chars_render] at ht
    apply disciplined_of_trace s _ _ _ hEN ht
    · exact Custom_Characters.LCD_Char_foldl_EN cs s hEN
    · rw [run_render, List.length_map, List.length_map]
    · rw [latched_render_length, List.length_map, List.length_map]
  · exact Custom_Characters.LCD_Command_disciplined _ s hEN
  · apply disciplined_of_trace s _ _ 12 hEN (Custom_Characters.LCD_Init_trace s)
    · exact Custom_Characters.LCD_Init_EN s
    · exact run_initSequence
    · rw [initSequence_latched]; rfl
  · apply disciplined_of_trace s _ _ 18 hEN
      (Custom_Characters.LCD_CreateChar_frames slot pattern s)
    · exact Custom_Characters.LCD_CreateChar_EN slot pattern s
    · rw [run_render]; rfl
    · rw [latched_render_length]; rfl

theorem C16_enable_discipline_witness :
    disciplined sampleState (Custom_Characters.LCD_Send4Bits 0x0A sampleState) 1
    ∧ disciplined sampleState (Custom_Characters.LCD_Command 0x28 sampleState) 2
    ∧ disciplined sampleState (Custom_Characters.LCD_Char 0x41 sampleState) 2
    ∧ (∃ s1, Custom_Characters.LCD_String (([0x48, 0x69] : List Int) ++ 0 :: []) sampleState
          = some s1
        ∧ disciplined sampleState s1 (2 * ([0x48, 0x69] : List Int).length))
    ∧ disciplined sampleState (Custom_Characters.LCD_SetCursor 0 2 5 sampleState) 2
    ∧ disciplined sampleState (Custom_Characters.LCD_Init sampleState) 12
    ∧ disciplined sampleState (Custom_Characters.LCD_CreateChar 3 glyph0 sampleState) 18 :=
  C16_enable_discipline sampleState (by decide) 0x0A 0x28 0x41 0 2 5 3 glyph0 [0x48, 0x69] []
    (by decide)

theorem Custom_Characters.LCD_Command_latched (b : Nat) (hb : b < 256) (s : MCU) :
    latched s.pins (emitted s (Custom_Characters.LCD_Command b s))
      = [(0, (b >>> 4) % 16), (0, (b &&& 0x0F) % 16)] := by
  rw [emitted_append s _ _ (Custom_Characters.LCD_Command_trace b s), Nat.mod_eq_of_lt hb,
    latched_commandFrame]

theorem Custom_Characters.LCD_Char_latched (c : Nat) (hc : c < 256) (s : MCU) :
    latched s.pins (emitted s (Custom_Characters.LCD_Char c s))
      = [(1, (c >>> 4) % 16), (1, (c &&& 0x0F) % 16)] := by
  rw [emitted_append s _ _ (Custom_Characters.LCD_Char_trace c s), Nat.mod_eq_of_lt hc,
    latched_charFrame]

theorem nibbles_injective (r : Nat) (b b1 : Nat) (hb : b < 256) (hb1 : b1 < 256)
    (h : [(r, (b >>> 4) % 16), (r, (b &&& 0x0F) % 16)]
      = [(r, (b1 >>> 4) % 16), (r, (b1 &&& 0x0F) % 16)]) : b = b1 := by
  simp only [List.cons.injEq, Prod.mk.injEq, true_and, and_true] at h
  rw [← byte_of_nibbles b hb, ← byte_of_nibbles b1 hb1, h.1, h.2]

/-- C17: for a byte `b`, reading D7*8 + D6*4 + D5*2 + D4 at the two falling edges of EN during
`LCD_Command(b)` or `LCD_Char(b)` (either file) gives nibbles `n1`, `n2` below 16 with
`n1 * 16 + n2 = b`, latched with RS = 0 for a command and RS = 1 for a character; two bytes
that give the same latched pair are equal. -/
theorem C17_pin_round_trip (b b1 : Nat) (hb : b < 256) (hb1 : b1 < 256) (s : MCU) :
    (∃ n1 n2, latched s.pins (emitted s (Custom_Characters.LCD_Command b s))
        = [(0, n1), (0, n2)] ∧ n1 < 16 ∧ n2 < 16 ∧ n1 * 16 + n2 = b)
    ∧ (∃ n1 n2, latched s.pins (emitted s (Custom_Characters.LCD_Char b s))
        = [(1, n1), (1, n2)] ∧ n1 < 16 ∧ n2 < 16 ∧ n1 * 16 + n2 = b)
    ∧ Hello_World.LCD_Command b s = Custom_Characters.LCD_Command b s
    ∧ Hello_World.LCD_Char b s = Custom_Characters.LCD_Char b s
    ∧ (latched s.pins (emitted s (Custom_Characters.LCD_Command b s))
          = latched s.pins (emitted s (Custom_Characters.LCD_Command b1 s)) → b = b1)
    ∧ (latched s.pins (emitted s (Custom_Characters.LCD_Char b s))
          = latched s.pins (emitted s (Custom_Characters.LCD_Char b1 s)) → b = b1)
    ∧ decoded s.pins (emitted s (Custom_Characters.LCD_Command b s)) = [(0, b)]
    ∧ decoded s.pins (emitted s (Custom_Characters.LCD_Char b s)) = [(1, b)] := by
  have hc := Custom_Characters.LCD_Command_latched b hb s
  have hd := Custom_Characters.LCD_Char_latched b hb s
  refine ⟨⟨_, _, hc, Nat.mod_lt _ (by decide), Nat.mod_lt _ (by decide),
      byte_of_nibbles b hb⟩,
    ⟨_, _, hd, Nat.mod_lt _ (by decide), Nat.mod_lt _ (by decide), byte_of_nibbles b hb⟩,
    Hello_World.LCD_Command_cc b s, Hello_World.LCD_Char_cc b s, ?_, ?_, ?_, ?_⟩
  · intro h
    rw [hc, Custom_Characters.LCD_Command_latched b1 hb1 s] at h
    exact nibbles_injective 0 b b1 hb hb1 h
  · intro h
    rw [hd, Custom_Characters.LCD_Char_latched b1 hb1 s] at h
    exact nibbles_injective 1 b b1 hb hb1 h
  · unfold decoded
    rw [hc]
    simp only [bytesOf, byte_of_nibbles b hb]
  · unfold decoded
    rw [hd]
    simp only [bytesOf, byte_of_nibbles b hb]

theorem C17_pin_round_trip_witness :
    (∃ n1 n2, latched sampleState.pins (emitted sampleState (Custom_Characters.LCD_Command 0xA5 sampleState))
        = [(0, n1), (0, n2)] ∧ n1 < 16 ∧ n2 < 16 ∧ n1 * 16 + n2 = 0xA5)
    ∧ (∃ n1 n2, latched sampleState.pins (emitted sampleState (Custom_Characters.LCD_Char 0xA5 sampleState))
        = [(1, n1), (1, n2)] ∧ n1 < 16 ∧ n2 < 16 ∧ n1 * 16 + n2 = 0xA5)
    ∧ Hello_World.LCD_Command 0xA5 sampleState = Custom_Characters.LCD_Command 0xA5 sampleState
    ∧ Hello_World.LCD_Char 0xA5 sampleState = Custom_Characters.LCD_Char 0xA5 sampleState
    ∧ (latched sampleState.pins (emitted sampleState (Custom_Characters.LCD_Command 0xA5 sampleState))
          = latched sampleState.pins (emitted sampleState (Custom_Characters.LCD_Command 0x5A sampleState)) → 0xA5 = 0x5A)
    ∧ (latched sampleState.pins (emitted sampleState (Custom_Characters.LCD_Char 0xA5 sampleState))
          = latched sampleState.pins (emitted sampleState (Custom_Characters.LCD_Char 0x5A sampleState)) → 0xA5 = 0x5A)
    ∧ decoded sampleState.pins (emitted sampleState (Custom_Characters.LCD_Command 0xA5 sampleState)) = [(0, 0xA5)]
    ∧ decoded sampleState.pins (emitted sampleState (Custom_Characters.LCD_Char 0xA5 sampleState)) = [(1, 0xA5)] :=
  C17_pin_round_trip 0xA5 0x5A (by decide) (by decide) sampleState

theorem Custom_Characters.LCD_Command_decoded (b : Nat) (hb : b < 256) (s : MCU) :
    decoded s.pins (emitted s (Custom_Characters.LCD_Command b s)) = [(0, b)] := by
  unfold decoded
  rw [Custom_Characters.LCD_Command_latched b hb s]
  simp only [bytesOf, byte_of_nibbles b hb]

theorem Custom_Characters.LCD_SetCursor_decoded (a row col : Nat) (hrow : row = 1 ∨ row = 2)
    (hcol : col < 40) (s : MCU) :
    decoded s.pins (emitted s (Custom_Characters.LCD_SetCursor a row col s))
      = [(0, (if row = 1 then 0x80 else 0xC0) + col)] := by
  rcases hrow with h | h
  · subst h
    have e : (0x80 + col) % 256 = 0x80 + col := by omega
    rw [Custom_Characters.LCD_SetCursor_row1, e,
      Custom_Characters.LCD_Command_decoded _ (by omega)]
    rfl
  · subst h
    have e : (0xC0 + col) % 256 = 0xC0 + col := by omega
    rw [Custom_Characters.LCD_SetCursor_row2, e,
      Custom_Characters.LCD_Command_decoded _ (by omega)]
    rfl

/-- C18: for rows in {1, 2} and columns in 0..39, the byte `LCD_SetCursor` sends (either file)
is a command with bit 7 set, in 0x80..0xA7 for row 1 and in 0xC0..0xE7 for row 2; two calls
that send the same byte have the same row and the same column. -/
theorem C18_cursor_injective (a a1 row col row1 col1 : Nat) (hrow : row = 1 ∨ row = 2)
    (hrow1 : row1 = 1 ∨ row1 = 2) (hcol : col < 40) (hcol1 : col1 < 40) (s : MCU) :
    (∃ b, decoded s.pins (emitted s (Custom_Characters.LCD_SetCursor a row col s)) = [(0, b)]
        ∧ b / 128 % 2 = 1 ∧ b < 256
        ∧ (row = 1 → 0x80 ≤ b ∧ b ≤ 0xA7) ∧ (row = 2 → 0xC0 ≤ b ∧ b ≤ 0xE7))
    ∧ (decoded s.pins (emitted s (Custom_Characters.LCD_SetCursor a row col s))
          = decoded s.pins (emitted s (Custom_Characters.LCD_SetCursor a1 row1 col1 s))
        → row = row1 ∧ col = col1)
    ∧ Hello_World.LCD_SetCursor a row col s = Custom_Characters.LCD_SetCursor a row col s := by
  have h := Custom_Characters.LCD_SetCursor_decoded a row col hrow hcol s
  have h1 := Custom_Characters.LCD_SetCursor_decoded a1 row1 col1 hrow1 hcol1 s
  refine ⟨⟨_, h, ?_, ?_, ?_, ?_⟩, ?_, Hello_World.LCD_SetCursor_cc a row col s⟩
  · rcases hrow with r | r <;> subst r <;> simp <;> omega
  · rcases hrow with r | r <;> subst r <;> simp <;> omega
  · intro r; subst r; simp; omega
  · intro r; subst r; simp; omega
  · intro e
    rw [h, h1] at e
    simp only [List.cons.injEq, Prod.mk.injEq, true_and, and_true] at e
    rcases hrow with r | r <;> rcases hrow1 with r1 | r1 <;> subst r <;> subst r1 <;>
      simp at e <;> omega

theorem C18_cursor_injective_witness :
    (∃ b, decoded sampleState.pins (emitted sampleState (Custom_Characters.LCD_SetCursor 0 1 39 sampleState)) = [(0, b)]
        ∧ b / 128 % 2 = 1 ∧ b < 256
        ∧ (1 = 1 → 0x80 ≤ b ∧ b ≤ 0xA7) ∧ (1 = 2 → 0xC0 ≤ b ∧ b ≤ 0xE7))
    ∧ (decoded sampleState.pins (emitted sampleState (Custom_Characters.LCD_SetCursor 0 1 39 sampleState))
          = decoded sampleState.pins (emitted sampleState (Custom_Characters.LCD_SetCursor 0xFF 2 0 sampleState))
        → 1 = 2 ∧ 39 = 0)
    ∧ Hello_World.LCD_SetCursor 0 1 39 sampleState = Custom_Characters.LCD_SetCursor 0 1 39 sampleState :=
  C18_cursor_injective 0 0xFF 1 39 2 0 (by decide) (by decide) (by decide) (by decide)
    sampleState

theorem and_sixtythree_eq_mod (x : Nat) : x &&& 63 = x % 64 :=
  Nat.and_pow_two_sub_one_eq_mod x 6

theorem cgram_byte_eq (slot : Nat) :
    (0x40 ||| (((slot % 256 &&& 0x07) % 256) <<< 3)) % 256 = 0x40 + 8 * (slot % 8) := by
  have hk : ∀ k, k < 8 → (0x40 ||| ((k % 256) <<< 3)) % 256 = 0x40 + 8 * k := by decide
  have e : slot % 256 &&& 0x07 = slot % 8 := by
    rw [and_seven_eq_mod]
    omega
  rw [e]
  exact hk (slot % 8) (Nat.mod_lt _ (by decide))

theorem cgramCell_eq (u i : Nat) (hu : u < 8) (hi : i < 8) :
    cgramCell (0x40 + 8 * u) i = 8 * u + i := by
  unfold cgramCell
  rw [and_sixtythree_eq_mod]
  omega

theorem Custom_Characters.LCD_CreateChar_decoded (slot : Nat) (pattern : Nat → Nat) (s : MCU) :
    decoded s.pins (emitted s (Custom_Characters.LCD_CreateChar slot pattern s))
      = (0, 0x40 + 8 * (slot % 8)) :: (List.range 8).map (fun i => (1, pattern i % 256)) := by
  have r8 : List.range 8 = [0, 1, 2, 3, 4, 5, 6, 7] := by decide
  rw [emitted_append s _ _ (Custom_Characters.LCD_CreateChar_frames slot pattern s),
    cgram_byte_eq, decoded_render]
  · simp [Frame.byte]
  · intro f hf
    rw [r8] at hf
    have hm : ∀ i, pattern i % 256 < 256 := fun i => Nat.mod_lt _ (by decide)
    have hb : 0x40 + 8 * (slot % 8) < 256 := by omega
    simp only [List.map, List.mem_cons, List.mem_singleton, List.not_mem_nil, or_false] at hf
    rcases hf with h | h | h | h | h | h | h | h | h <;> subst h <;>
      simp only [Frame.byte] <;> first | exact hb | exact hm _

/-- C19: for every slot value, the first byte `LCD_CreateChar` sends is the command
`0x40 + 8 * (slot mod 8)`: one of 0x40, 0x48, .., 0x78, with bit 7 clear, bit 6 set and the low
three bits zero; it is never the byte `LCD_SetCursor` sends for rows 1, 2 and columns 0..39. The
CGRAM cells written by the eight pattern bytes of slot `u` are `8 * u .. 8 * u + 7`, and those of
two distinct slots below 8 never coincide. -/
theorem C19_glyph_addressing (slot : Nat) (pattern : Nat → Nat) (s : MCU) :
    ∃ b, decoded s.pins (emitted s (Custom_Characters.LCD_CreateChar slot pattern s))
          = (0, b) :: (List.range 8).map (fun i => (1, pattern i % 256))
      ∧ b = 0x40 + 8 * (slot % 8)
      ∧ b ∈ [0x40, 0x48, 0x50, 0x58, 0x60, 0x68, 0x70, 0x78]
      ∧ b / 128 % 2 = 0 ∧ b / 64 % 2 = 1 ∧ b % 8 = 0
      ∧ (∀ a row col, row = 1 ∨ row = 2 → col < 40 →
          decoded s.pins (emitted s (Custom_Characters.LCD_SetCursor a row col s)) ≠ [(0, b)])
      ∧ (∀ i, i < 8 → cgramCell b i = 8 * (slot % 8) + i)
      ∧ (∀ u v, u < 8 → v < 8 → u ≠ v → ∀ i j, i < 8 → j < 8 →
          cgramCell (0x40 + 8 * u) i ≠ cgramCell (0x40 + 8 * v) j) := by
  have hk : slot % 8 < 8 := Nat.mod_lt _ (by decide)
  refine ⟨_, Custom_Characters.LCD_CreateChar_decoded slot pattern s, rfl, ?_, by omega,
    by omega, by omega, ?_, ?_, ?_⟩
  · generalize slot % 8 = k at hk
    interval_cases k <;> decide
  · intro a row col hrow hcol h
    rw [Custom_Characters.LCD_SetCursor_decoded a row col hrow hcol s] at h
    simp only [List.cons.injEq, Prod.mk.injEq, true_and, and_true] at h
    rcases hrow with r | r <;> subst r <;> simp at h <;> omega
  · intro i hi
    exact cgramCell_eq _ i hk hi
  · intro u v hu hv huv i j hi hj
    rw [cgramCell_eq u i hu hi, cgramCell_eq v j hv hj]
    omega

end LCD
